import Mathlib

/-!
Verification development for the half-precision WMMA GEMM kernels in
src/kernel/wmma.cu (synchronous variant hgemm_m16n16k16mma2x4_wp4x2,
asynchronous double-buffered variant hgemm_m16n16k16mma2x4_wp4x2_async,
and their torch host wrappers).

Modelling conventions:
* Element values (the half-precision scalars) are modelled as exact
  rationals; global buffers A, B, C and the shared staging buffers are
  flat row-major arrays modelled as total functions Nat → ℚ.
* Each 128-bit vectorized transfer (LDST128BITS / cp.async of 16 bytes)
  moves 8 consecutive half elements and is modelled by copy8.
* A cooperative staging copy is a fold of the 256 threads' copy8 writes,
  parameterized by the order in which the threads' writes land.
* The wmma fragment operations are modelled elementwise:
  load_matrix_sync reads a 16x16 tile at a given leading dimension,
  mma_sync performs frag_C := frag_A * frag_B + frag_C, and
  store_matrix_sync emits a list of (flat index, value) writes.
* Shared memory starts with arbitrary contents (parameters sA0, sB0),
  matching uninitialized __shared__ storage.
-/

namespace HgemmWMMA

/-- Flat buffer of rational values (model of an array of half values). -/
abbrev Mat := Nat → ℚ

/-- WARP_SIZE from the source. -/
def WARP_SIZE : Nat := 32

/-- Template parameter WMMA_SIZE_M (host instantiation: 16). -/
def WMMA_SIZE_M : Nat := 16

/-- Template parameter WMMA_SIZE_N (host instantiation: 16). -/
def WMMA_SIZE_N : Nat := 16

/-- Template parameter WMMA_SIZE_K (host instantiation: 16). -/
def WMMA_SIZE_K : Nat := 16

/-- Template parameter WARPS_PER_BLOCK_M (host instantiation: 4). -/
def WARPS_PER_BLOCK_M : Nat := 4

/-- Template parameter WARPS_PER_BLOCK_N (host instantiation: 2). -/
def WARPS_PER_BLOCK_N : Nat := 2

/-- Template parameter WMMA_PER_WARP_M (host instantiation: 2). -/
def WMMA_PER_WARP_M : Nat := 2

/-- Template parameter WMMA_PER_WARP_N (host instantiation: 4). -/
def WMMA_PER_WARP_N : Nat := 4

/-- NUM_THREADS = WARPS_PER_BLOCK_M * WARPS_PER_BLOCK_N * WARP_SIZE = 256. -/
def NUM_THREADS : Nat := WARPS_PER_BLOCK_M * WARPS_PER_BLOCK_N * WARP_SIZE

/-- BM = WMMA_SIZE_M * WMMA_PER_WARP_M * WARPS_PER_BLOCK_M = 128. -/
def BM : Nat := WMMA_SIZE_M * WMMA_PER_WARP_M * WARPS_PER_BLOCK_M

/-- BN = WMMA_SIZE_N * WMMA_PER_WARP_N * WARPS_PER_BLOCK_N = 128. -/
def BN : Nat := WMMA_SIZE_N * WMMA_PER_WARP_N * WARPS_PER_BLOCK_N

/-- BK = WMMA_SIZE_K = 16. -/
def BK : Nat := WMMA_SIZE_K

/-- warp_m = warp_id / 2 (source line 60). -/
def warp_m (warp_id : Nat) : Nat := warp_id / 2

/-- warp_n = warp_id % 2 (source line 61). -/
def warp_n (warp_id : Nat) : Nat := warp_id % 2

/-- load_s_A_m = tid / 2 (source line 65). -/
def load_s_A_m (tid : Nat) : Nat := tid / 2

/-- load_s_A_k = (tid % 2 == 0) ? 0 : 8 (source line 66). -/
def load_s_A_k (tid : Nat) : Nat := if tid % 2 = 0 then 0 else 8

/-- load_s_B_k = tid / 16 (source line 68). -/
def load_s_B_k (tid : Nat) : Nat := tid / 16

/-- load_s_B_n = (tid % 16) * 8 (source line 69). -/
def load_s_B_n (tid : Nat) : Nat := (tid % 16) * 8

/-- One LDST128BITS transfer: copy 8 consecutive elements from src
(starting at srcOff) over dst (starting at dstOff). -/
def copy8 (dst : Mat) (dstOff : Nat) (src : Mat) (srcOff : Nat) : Mat :=
  fun idx => if dstOff ≤ idx ∧ idx < dstOff + 8 then src (srcOff + (idx - dstOff)) else dst idx

/-- Cooperative staging copy: every thread tid in the list ord performs its
copy8 from src into the staging buffer, at thread-dependent offsets. -/
def stageGen (src : Mat) (dstOff srcOff : Nat → Nat) (ord : List Nat) (s0 : Mat) : Mat :=
  ord.foldl (fun s tid => copy8 s (dstOff tid) src (srcOff tid)) s0

/-- Synchronous kernel: staging copy of the BM x BK slice idx_k of A into
s_A (flat, leading dimension BK), source lines 93-97. -/
def stageA (A : Mat) (K b_y idx_k : Nat) (ord : List Nat) (s0 : Mat) : Mat :=
  stageGen A
    (fun tid => load_s_A_m tid * BK + load_s_A_k tid)
    (fun tid => (b_y * BM + load_s_A_m tid) * K + (idx_k * WMMA_SIZE_K + load_s_A_k tid))
    ord s0

/-- Synchronous kernel: staging copy of the BK x BN slice idx_k of B into
s_B (flat, leading dimension BN), source lines 95-98. -/
def stageB (B : Mat) (N b_x idx_k : Nat) (ord : List Nat) (s0 : Mat) : Mat :=
  stageGen B
    (fun tid => load_s_B_k tid * BN + load_s_B_n tid)
    (fun tid => (idx_k * WMMA_SIZE_K + load_s_B_k tid) * N + (b_x * BN + load_s_B_n tid))
    ord s0

/-- Asynchronous kernel: cp.async staging copy of slice idx_k of A into
buffer slot buf of s_A[2][BM][BK+PAD] (flat), source lines 209-216 and 240-245. -/
def stageA_async (A : Mat) (K b_y idx_k PAD buf : Nat) (ord : List Nat) (s0 : Mat) : Mat :=
  stageGen A
    (fun tid => buf * (BM * (BK + PAD)) + (load_s_A_m tid * (BK + PAD) + load_s_A_k tid))
    (fun tid => (b_y * BM + load_s_A_m tid) * K + (idx_k * WMMA_SIZE_K + load_s_A_k tid))
    ord s0

/-- Asynchronous kernel: cp.async staging copy of slice idx_k of B into
buffer slot buf of s_B[2][BK][BN+PAD] (flat), source lines 211-220 and 242-247. -/
def stageB_async (B : Mat) (N b_x idx_k PAD buf : Nat) (ord : List Nat) (s0 : Mat) : Mat :=
  stageGen B
    (fun tid => buf * (BK * (BN + PAD)) + (load_s_B_k tid * (BN + PAD) + load_s_B_n tid))
    (fun tid => (idx_k * WMMA_SIZE_K + load_s_B_k tid) * N + (b_x * BN + load_s_B_n tid))
    ord s0

/-- load_matrix_sync for frag_A[i] in the synchronous kernel (source line 113):
tile starting at row warp_m*(WMMA_PER_WARP_M*WMMA_SIZE_M) + i*WMMA_SIZE_M of s_A,
leading dimension BK; element (r, kk). -/
def loadFragA (s : Mat) (wm i : Nat) : Nat → Nat → ℚ :=
  fun r kk => s ((wm * (WMMA_PER_WARP_M * WMMA_SIZE_M) + i * WMMA_SIZE_M) * BK + (r * BK + kk))

/-- load_matrix_sync for frag_B[j] in the synchronous kernel (source line 117):
tile starting at column warp_n*(WMMA_PER_WARP_N*WMMA_SIZE_N) + j*WMMA_SIZE_N of s_B,
leading dimension BN; element (kk, c). -/
def loadFragB (s : Mat) (wn j : Nat) : Nat → Nat → ℚ :=
  fun kk c => s ((wn * (WMMA_PER_WARP_N * WMMA_SIZE_N) + j * WMMA_SIZE_N) + (kk * BN + c))

/-- load_matrix_sync for frag_A[i] in the asynchronous kernel
(source lines 262, 298): buffer slot buf, leading dimension BK+PAD. -/
def loadFragA_async (s : Mat) (PAD buf wm i : Nat) : Nat → Nat → ℚ :=
  fun r kk =>
    s (buf * (BM * (BK + PAD)) +
       ((wm * (WMMA_PER_WARP_M * WMMA_SIZE_M) + i * WMMA_SIZE_M) * (BK + PAD) + (r * (BK + PAD) + kk)))

/-- load_matrix_sync for frag_B[j] in the asynchronous kernel
(source lines 266, 302): buffer slot buf, leading dimension BN+PAD. -/
def loadFragB_async (s : Mat) (PAD buf wn j : Nat) : Nat → Nat → ℚ :=
  fun kk c =>
    s (buf * (BK * (BN + PAD)) +
       ((wn * (WMMA_PER_WARP_N * WMMA_SIZE_N) + j * WMMA_SIZE_N) + (kk * (BN + PAD) + c)))

/-- wmma::mma_sync(fragC, fragA, fragB, fragC): elementwise
fragC := fragA * fragB + fragC over the 16x16x16 tile. -/
def mma_sync (fA fB fC : Nat → Nat → ℚ) : Nat → Nat → ℚ :=
  fun r c => (∑ kk ∈ Finset.range WMMA_SIZE_K, fA r kk * fB kk c) + fC r c

/-- Synchronous kernel: contents of s_A after t iterations of the reduction
loop's staging phase (iteration t stages slice t over the previous contents). -/
def s_A_state (A : Mat) (K b_y : Nat) (ord : List Nat) (s0 : Mat) : Nat → Mat
  | 0 => s0
  | t + 1 => stageA A K b_y t ord (s_A_state A K b_y ord s0 t)

/-- Synchronous kernel: contents of s_B after t staging iterations. -/
def s_B_state (B : Mat) (N b_x : Nat) (ord : List Nat) (s0 : Mat) : Nat → Mat
  | 0 => s0
  | t + 1 => stageB B N b_x t ord (s_B_state B N b_x ord s0 t)

/-- Synchronous kernel: accumulator fragment frag_C[i][j] of warp w, element
(r, c), after t iterations of the reduction loop (source lines 79-130):
fill_fragment(0) once, then one mma_sync per staged slice. -/
def frag_C_sync (A B : Mat) (N K b_x b_y : Nat) (ordA ordB : List Nat) (sA0 sB0 : Mat)
    (w i j : Nat) : Nat → Nat → Nat → ℚ
  | 0 => fun _ _ => 0
  | t + 1 =>
    mma_sync
      (loadFragA (s_A_state A K b_y ordA sA0 (t + 1)) (warp_m w) i)
      (loadFragB (s_B_state B N b_x ordB sB0 (t + 1)) (warp_n w) j)
      (frag_C_sync A B N K b_x b_y ordA ordB sA0 sB0 w i j t)

/-- Asynchronous kernel: contents of s_A after the prefetches of slices
0..t have completed: the pipeline fill stages slice 0 into slot 0
(source lines 209-216), and loop iteration idx_k = t+1 stages slice t+1
into slot (t+1) % 2 (next_buf = idx_k & 1, source lines 237-245). -/
def s_A_state_async (A : Mat) (K b_y PAD : Nat) (ord : List Nat) (s0 : Mat) : Nat → Mat
  | 0 => stageA_async A K b_y 0 PAD 0 ord s0
  | t + 1 => stageA_async A K b_y (t + 1) PAD ((t + 1) % 2) ord (s_A_state_async A K b_y PAD ord s0 t)

/-- Asynchronous kernel: contents of s_B after the prefetches of slices 0..t. -/
def s_B_state_async (B : Mat) (N b_x PAD : Nat) (ord : List Nat) (s0 : Mat) : Nat → Mat
  | 0 => stageB_async B N b_x 0 PAD 0 ord s0
  | t + 1 => stageB_async B N b_x (t + 1) PAD ((t + 1) % 2) ord (s_B_state_async B N b_x PAD ord s0 t)

/-- Asynchronous kernel: accumulator frag_C[i][j] element (r, c) after the
first t iterations of the main loop (source lines 230-282). Iteration
idx_k = t+1 prefetches slice t+1 and computes slice t from buffer slot
curr_buf = (idx_k - 1) & 1 = t % 2. -/
def frag_C_async_loop (A B : Mat) (N K b_x b_y PAD : Nat) (ordA ordB : List Nat) (sA0 sB0 : Mat)
    (w i j : Nat) : Nat → Nat → Nat → ℚ
  | 0 => fun _ _ => 0
  | t + 1 =>
    mma_sync
      (loadFragA_async (s_A_state_async A K b_y PAD ordA sA0 (t + 1)) PAD (t % 2) (warp_m w) i)
      (loadFragB_async (s_B_state_async B N b_x PAD ordB sB0 (t + 1)) PAD (t % 2) (warp_n w) j)
      (frag_C_async_loop A B N K b_x b_y PAD ordA ordB sA0 sB0 w i j t)

/-- last_buf = ((K / WMMA_SIZE_K) - 1) & 1 (source line 286), computed in
C int arithmetic: for K / 16 = 0 this is (-1) & 1 = 1. -/
def last_buf (K : Nat) : Nat := ((((K / WMMA_SIZE_K : Nat) : Int) - 1) % 2).toNat

/-- Asynchronous kernel: final accumulator frag_C[i][j] element (r, c):
the main loop (K/16 - 1 iterations) followed by the unconditional drain
compute pass against buffer slot last_buf (source lines 284-312). -/
def frag_C_async (A B : Mat) (N K b_x b_y PAD : Nat) (ordA ordB : List Nat) (sA0 sB0 : Mat)
    (w i j : Nat) : Nat → Nat → ℚ :=
  mma_sync
    (loadFragA_async (s_A_state_async A K b_y PAD ordA sA0 (K / WMMA_SIZE_K - 1)) PAD (last_buf K) (warp_m w) i)
    (loadFragB_async (s_B_state_async B N b_x PAD ordB sB0 (K / WMMA_SIZE_K - 1)) PAD (last_buf K) (warp_n w) j)
    (frag_C_async_loop A B N K b_x b_y PAD ordA ordB sA0 sB0 w i j (K / WMMA_SIZE_K - 1))

/-- Single element store into the output buffer. -/
def writeCell (C : Mat) (idx : Nat) (v : ℚ) : Mat :=
  fun o => if o = idx then v else C o

/-- Apply a list of (flat index, value) stores to the output buffer. -/
def applyWrites (ws : List (Nat × ℚ)) (C0 : Mat) : Mat :=
  ws.foldl (fun C p => writeCell C p.1 p.2) C0

/-- store_g_C_m = b_y * BM + warp_m * (WMMA_SIZE_M * WMMA_PER_WARP_M) + i * WMMA_SIZE_M
(source lines 136, 319). -/
def store_g_C_m (b_y w i : Nat) : Nat :=
  b_y * BM + warp_m w * (WMMA_SIZE_M * WMMA_PER_WARP_M) + i * WMMA_SIZE_M

/-- store_g_C_n = b_x * BN + warp_n * (WMMA_SIZE_N * WMMA_PER_WARP_N) + j * WMMA_SIZE_N
(source lines 137, 320). -/
def store_g_C_n (b_x w j : Nat) : Nat :=
  b_x * BN + warp_n w * (WMMA_SIZE_N * WMMA_PER_WARP_N) + j * WMMA_SIZE_N

/-- store_matrix_sync of one 16x16 accumulator fragment, row-major with
leading dimension N, at flat base offset base: element (r, c) goes to
base + r * N + c. -/
def fragStores (base N : Nat) (frag : Nat → Nat → ℚ) : List (Nat × ℚ) :=
  (List.range WMMA_SIZE_M).flatMap fun r =>
    (List.range WMMA_SIZE_N).map fun c => (base + (r * N + c), frag r c)

/-- All output stores performed by block (b_x, b_y) of the synchronous
kernel (source lines 132-141); the argument M of the kernel is never used
by its body. -/
def blockStoresSync (A B : Mat) (M N K b_x b_y : Nat) (ordA ordB : List Nat) (sA0 sB0 : Mat) :
    List (Nat × ℚ) :=
  (List.range (WARPS_PER_BLOCK_M * WARPS_PER_BLOCK_N)).flatMap fun w =>
    (List.range WMMA_PER_WARP_M).flatMap fun i =>
      (List.range WMMA_PER_WARP_N).flatMap fun j =>
        fragStores (store_g_C_m b_y w i * N + store_g_C_n b_x w j) N
          (frag_C_sync A B N K b_x b_y ordA ordB sA0 sB0 w i j (K / WMMA_SIZE_K))

/-- All output stores performed by block (b_x, b_y) of the asynchronous
kernel (source lines 314-324); M is never used by the kernel body. -/
def blockStoresAsync (A B : Mat) (M N K PAD b_x b_y : Nat) (ordA ordB : List Nat) (sA0 sB0 : Mat) :
    List (Nat × ℚ) :=
  (List.range (WARPS_PER_BLOCK_M * WARPS_PER_BLOCK_N)).flatMap fun w =>
    (List.range WMMA_PER_WARP_M).flatMap fun i =>
      (List.range WMMA_PER_WARP_N).flatMap fun j =>
        fragStores (store_g_C_m b_y w i * N + store_g_C_n b_x w j) N
          (frag_C_async A B N K b_x b_y PAD ordA ordB sA0 sB0 w i j)

/-- Stores of the whole grid of the synchronous kernel; the host launches
grid(N / BN, M / BM) blocks (source lines 365-367). -/
def gridStoresSync (A B : Mat) (M N K : Nat) (ordA ordB : List Nat) (sA0 sB0 : Mat) :
    List (Nat × ℚ) :=
  (List.range (M / BM)).flatMap fun b_y =>
    (List.range (N / BN)).flatMap fun b_x =>
      blockStoresSync A B M N K b_x b_y ordA ordB sA0 sB0

/-- Stores of the whole grid of the asynchronous kernel. -/
def gridStoresAsync (A B : Mat) (M N K PAD : Nat) (ordA ordB : List Nat) (sA0 sB0 : Mat) :
    List (Nat × ℚ) :=
  (List.range (M / BM)).flatMap fun b_y =>
    (List.range (N / BN)).flatMap fun b_x =>
      blockStoresAsync A B M N K PAD b_x b_y ordA ordB sA0 sB0

/-- Output buffer after a launch of the synchronous kernel over the whole
grid, starting from output contents C0 and staging-buffer contents sA0, sB0,
with the threads' staging writes landing in orders ordA, ordB. -/
def syncKernelRun (A B : Mat) (M N K : Nat) (ordA ordB : List Nat) (sA0 sB0 C0 : Mat) : Mat :=
  applyWrites (gridStoresSync A B M N K ordA ordB sA0 sB0) C0

/-- Output buffer after a launch of the asynchronous kernel over the whole grid. -/
def asyncKernelRun (A B : Mat) (M N K PAD : Nat) (ordA ordB : List Nat) (sA0 sB0 C0 : Mat) : Mat :=
  applyWrites (gridStoresAsync A B M N K PAD ordA ordB sA0 sB0) C0

/-- Reference row-major matrix product: element (m, n) of A * B where A is
M x K and B is K x N, both flat row-major. -/
def refC (A B : Mat) (N K : Nat) (m n : Nat) : ℚ :=
  ∑ k ∈ Finset.range K, A (m * K + k) * B (k * N + n)

/-- Exact value contributed to accumulator element (r, c) of fragment (i, j)
of warp w in block (b_x, b_y) by the multiply-accumulate of reduction slice t:
the 16-term inner product of the corresponding row of A and column of B. -/
def sliceMMA (A B : Mat) (N K b_x b_y w i j t r c : Nat) : ℚ :=
  ∑ kk ∈ Finset.range WMMA_SIZE_K,
    A ((b_y * BM + (warp_m w * (WMMA_PER_WARP_M * WMMA_SIZE_M) + i * WMMA_SIZE_M + r)) * K
        + (t * WMMA_SIZE_K + kk)) *
    B ((t * WMMA_SIZE_K + kk) * N
        + (b_x * BN + (warp_n w * (WMMA_PER_WARP_N * WMMA_SIZE_N) + j * WMMA_SIZE_N + c)))

/-- Model of a torch dtype: half or some other dtype. -/
inductive TorchDType where
  | half
  | float
deriving DecidableEq

/-- Model of a 2-dimensional torch tensor's metadata. -/
structure TorchTensor2D where
  dtype : TorchDType
  size0 : Nat
  size1 : Nat

/-- Host wrapper of the synchronous kernel (source lines 343-379):
dtype checks, divisibility check, shape checks, then the kernel launch.
On success returns the output buffer computed by the launched kernel. -/
def hgemm_wrapper_sync (a b c : TorchTensor2D) (Adata Bdata C0 : Mat)
    (ordA ordB : List Nat) (sA0 sB0 : Mat) : Except String Mat :=
  if a.dtype ≠ TorchDType.half then Except.error "values must be torch::kHalf"
  else if b.dtype ≠ TorchDType.half then Except.error "values must be torch::kHalf"
  else if c.dtype ≠ TorchDType.half then Except.error "values must be torch::kHalf"
  else if a.size0 % 128 ≠ 0 ∨ b.size1 % 128 ≠ 0 ∨ a.size1 % 16 ≠ 0 then
    Except.error "M and N must be divisible by 128. K must be divisible by 16."
  else if a.size0 ≠ a.size0 ∨ a.size1 ≠ a.size1 then Except.error "Tensor size mismatch!"
  else if b.size0 ≠ a.size1 ∨ b.size1 ≠ b.size1 then Except.error "Tensor size mismatch!"
  else if c.size0 ≠ a.size0 ∨ c.size1 ≠ b.size1 then Except.error "Tensor size mismatch!"
  else Except.ok (syncKernelRun Adata Bdata a.size0 b.size1 a.size1 ordA ordB sA0 sB0 C0)

/-- Host wrapper of the asynchronous kernel (source lines 381-417):
identical validation; the kernel is instantiated with PAD = 8. -/
def hgemm_wrapper_async (a b c : TorchTensor2D) (Adata Bdata C0 : Mat)
    (ordA ordB : List Nat) (sA0 sB0 : Mat) : Except String Mat :=
  if a.dtype ≠ TorchDType.half then Except.error "values must be torch::kHalf"
  else if b.dtype ≠ TorchDType.half then Except.error "values must be torch::kHalf"
  else if c.dtype ≠ TorchDType.half then Except.error "values must be torch::kHalf"
  else if a.size0 % 128 ≠ 0 ∨ b.size1 % 128 ≠ 0 ∨ a.size1 % 16 ≠ 0 then
    Except.error "M and N must be divisible by 128. K must be divisible by 16."
  else if a.size0 ≠ a.size0 ∨ a.size1 ≠ a.size1 then Except.error "Tensor size mismatch!"
  else if b.size0 ≠ a.size1 ∨ b.size1 ≠ b.size1 then Except.error "Tensor size mismatch!"
  else if c.size0 ≠ a.size0 ∨ c.size1 ≠ b.size1 then Except.error "Tensor size mismatch!"
  else Except.ok (asyncKernelRun Adata Bdata a.size0 b.size1 a.size1 8 ordA ordB sA0 sB0 C0)

/-- Preconditions the host wrappers enforce: all dtypes half, divisibility
of the dimensions, and shape agreement. -/
def wrapperPre (a b c : TorchTensor2D) : Prop :=
  a.dtype = TorchDType.half ∧ b.dtype = TorchDType.half ∧ c.dtype = TorchDType.half ∧
  a.size0 % 128 = 0 ∧ b.size1 % 128 = 0 ∧ a.size1 % 16 = 0 ∧
  b.size0 = a.size1 ∧ c.size0 = a.size0 ∧ c.size1 = b.size1

/-! Numeric values of the tile constants. -/

lemma BM_eq : BM = 128 := rfl

lemma BN_eq : BN = 128 := rfl

lemma BK_eq : BK = 16 := rfl

lemma NUM_THREADS_eq : NUM_THREADS = 256 := rfl

lemma load_s_A_k_eq (tid : Nat) : load_s_A_k tid = tid % 2 * 8 := by
  rw [load_s_A_k]
  by_cases h : tid % 2 = 0
  · rw [if_pos h, h]
  · rw [if_neg h]; omega

/-! Generic facts about the staging fold and the output-write fold. -/

lemma stageGen_cons (src : Mat) (dstOff srcOff : Nat → Nat) (t : Nat) (rest : List Nat) (s0 : Mat) :
    stageGen src dstOff srcOff (t :: rest) s0 =
      stageGen src dstOff srcOff rest (copy8 s0 (dstOff t) src (srcOff t)) := rfl

lemma stageGen_untouched (src : Mat) (dstOff srcOff : Nat → Nat) (ord : List Nat) (s0 : Mat)
    (cell : Nat) (h : ∀ tid ∈ ord, ¬ (dstOff tid ≤ cell ∧ cell < dstOff tid + 8)) :
    stageGen src dstOff srcOff ord s0 cell = s0 cell := by
  induction ord generalizing s0 with
  | nil => rfl
  | cons t rest ih =>
    rw [stageGen_cons, ih _ (fun tid htid => h tid (List.mem_cons_of_mem _ htid))]
    simp only [copy8]
    rw [if_neg (h t (List.mem_cons_self t rest))]

lemma stageGen_get (src : Mat) (dstOff srcOff : Nat → Nat) (ord : List Nat) (s0 : Mat)
    (cell v : Nat)
    (hex : ∃ tid ∈ ord, dstOff tid ≤ cell ∧ cell < dstOff tid + 8)
    (hval : ∀ tid ∈ ord, dstOff tid ≤ cell → cell < dstOff tid + 8 →
      srcOff tid + (cell - dstOff tid) = v) :
    stageGen src dstOff srcOff ord s0 cell = src v := by
  induction ord generalizing s0 with
  | nil => exact absurd hex (by simp)
  | cons t rest ih =>
    rw [stageGen_cons]
    by_cases hrest : ∃ tid ∈ rest, dstOff tid ≤ cell ∧ cell < dstOff tid + 8
    · exact ih _ hrest (fun tid htid => hval tid (List.mem_cons_of_mem _ htid))
    · have hhead : dstOff t ≤ cell ∧ cell < dstOff t + 8 := by
        rcases hex with ⟨u, hu, hcov⟩
        rcases List.mem_cons.mp hu with h1 | h2
        · rwa [← h1]
        · exact absurd ⟨u, h2, hcov⟩ hrest
      rw [stageGen_untouched src dstOff srcOff rest _ cell
        (fun tid htid hcov => hrest ⟨tid, htid, hcov⟩)]
      simp only [copy8]
      rw [if_pos hhead, hval t (List.mem_cons_self t rest) hhead.1 hhead.2]

lemma stageGen_const (src : Mat) (dstOff srcOff : Nat → Nat) (ord : List Nat) (s0 : Mat)
    (q : ℚ) (hsrc : ∀ x, src x = q) (hs0 : ∀ x, s0 x = q) (cell : Nat) :
    stageGen src dstOff srcOff ord s0 cell = q := by
  induction ord generalizing s0 with
  | nil => exact hs0 cell
  | cons t rest ih =>
    rw [stageGen_cons]
    refine ih _ (fun x => ?_)
    simp only [copy8]
    split
    · exact hsrc _
    · exact hs0 _

lemma applyWrites_cons (p : Nat × ℚ) (ws : List (Nat × ℚ)) (C0 : Mat) :
    applyWrites (p :: ws) C0 = applyWrites ws (writeCell C0 p.1 p.2) := rfl

lemma applyWrites_untouched (ws : List (Nat × ℚ)) (C0 : Mat) (o : Nat)
    (h : ∀ p ∈ ws, p.1 ≠ o) : applyWrites ws C0 o = C0 o := by
  induction ws generalizing C0 with
  | nil => rfl
  | cons p rest ih =>
    rw [applyWrites_cons, ih _ (fun q hq => h q (List.mem_cons_of_mem _ hq))]
    simp only [writeCell]
    rw [if_neg (fun he => (h p (List.mem_cons_self p rest)) he.symm)]

lemma applyWrites_eq (ws : List (Nat × ℚ)) (C0 : Mat) (o : Nat) (v : ℚ)
    (hmem : (o, v) ∈ ws) (huniq : ∀ p ∈ ws, p.1 = o → p.2 = v) :
    applyWrites ws C0 o = v := by
  induction ws generalizing C0 with
  | nil => exact absurd hmem (by simp)
  | cons p rest ih =>
    rw [applyWrites_cons]
    by_cases hrest : ∃ q ∈ rest, q.1 = o
    · rcases hrest with ⟨q, hq, hq1⟩
      have hq2 : q.2 = v := huniq q (List.mem_cons_of_mem _ hq) hq1
      have hqv : q = (o, v) := by
        obtain ⟨q1, q2⟩ := q
        simp only [Prod.mk.injEq]
        exact ⟨hq1, hq2⟩
      exact ih _ (by rwa [hqv] at hq) (fun q hq => huniq q (List.mem_cons_of_mem _ hq))
    · have hp : p = (o, v) := by
        rcases List.mem_cons.mp hmem with h1 | h2
        · exact h1.symm
        · exact absurd ⟨(o, v), h2, rfl⟩ hrest
      rw [applyWrites_untouched _ _ _ (fun q hq hq1 => hrest ⟨q, hq, hq1⟩), hp]
      simp [writeCell]

/-! Arithmetic helpers for the tiled index computations. -/

lemma mul_add_lt_of_lt (R ld m k : Nat) (hm : m < R) (hk : k < ld) : m * ld + k < R * ld := by
  calc m * ld + k < m * ld + ld := by omega
    _ = (m + 1) * ld := by ring
    _ ≤ R * ld := Nat.mul_le_mul_right ld hm

lemma mul_add_le_of_lt (R ld m k : Nat) (hm : m < R) (hk : k ≤ ld) : m * ld + k ≤ R * ld := by
  calc m * ld + k ≤ m * ld + ld := by omega
    _ = (m + 1) * ld := by ring
    _ ≤ R * ld := Nat.mul_le_mul_right ld hm

lemma seg_cover (ld a q row k : Nat) (hq8 : q + 8 ≤ ld) (hk : k < ld)
    (h1 : a * ld + q ≤ row * ld + k) (h2 : row * ld + k < a * ld + q + 8) :
    a = row ∧ q ≤ k ∧ k < q + 8 := by
  have ha : a = row := by
    rcases Nat.lt_trichotomy a row with h | h | h
    · exfalso
      have hle : (a + 1) * ld ≤ row * ld := Nat.mul_le_mul_right ld h
      have hlt : row * ld + k < row * ld := by
        calc row * ld + k < a * ld + q + 8 := h2
          _ ≤ a * ld + ld := by omega
          _ = (a + 1) * ld := by ring
          _ ≤ row * ld := hle
      exact Nat.lt_irrefl _ (Nat.lt_of_le_of_lt (Nat.le_add_right _ k) hlt)
    · exact h
    · exfalso
      have hle : (row + 1) * ld ≤ a * ld := Nat.mul_le_mul_right ld h
      have hlt : a * ld + q < a * ld := by
        calc a * ld + q ≤ row * ld + k := h1
          _ < row * ld + ld := by omega
          _ = (row + 1) * ld := by ring
          _ ≤ a * ld := hle
      exact Nat.lt_irrefl _ (Nat.lt_of_le_of_lt (Nat.le_add_right _ q) hlt)
  subst ha
  have hgen : ∀ X : Nat, X + q ≤ X + k → X + k < X + q + 8 → q ≤ k ∧ k < q + 8 := by
    intro X hx1 hx2
    omega
  exact ⟨rfl, (hgen _ h1 h2).1, (hgen _ h1 h2).2⟩

lemma mul_add_inj (ld a r b s : Nat) (hr : r < ld) (hs : s < ld) (h : a * ld + r = b * ld + s) :
    a = b ∧ r = s := by
  have hld : 0 < ld := by omega
  have ha : a = b := by
    have h1 : (a * ld + r) / ld = a := by
      rw [Nat.mul_comm a ld, Nat.mul_add_div hld, Nat.div_eq_of_lt hr, Nat.add_zero]
    have h2 : (b * ld + s) / ld = b := by
      rw [Nat.mul_comm b ld, Nat.mul_add_div hld, Nat.div_eq_of_lt hs, Nat.add_zero]
    rw [← h1, h, h2]
  subst ha
  exact ⟨rfl, Nat.add_left_cancel h⟩

/-! Reading back the staged slices: each staged cell holds the unique
matching element of the global operand slice. -/

lemma mem_ord_lt (ord : List Nat) (hord : ord.Perm (List.range NUM_THREADS)) (tid : Nat)
    (htid : tid ∈ ord) : tid < 256 := by
  have h := List.mem_range.mp (hord.mem_iff.mp htid)
  rwa [NUM_THREADS_eq] at h

lemma owner_mem (ord : List Nat) (hord : ord.Perm (List.range NUM_THREADS)) (tid : Nat)
    (h : tid < 256) : tid ∈ ord := by
  rw [hord.mem_iff, List.mem_range, NUM_THREADS_eq]
  exact h

lemma read_stageA (A : Mat) (K b_y slice : Nat) (ord : List Nat)
    (hord : ord.Perm (List.range NUM_THREADS)) (s0 : Mat) (row kk : Nat)
    (hrow : row < 128) (hkk : kk < 16) :
    stageA A K b_y slice ord s0 (row * BK + kk) =
      A ((b_y * BM + row) * K + (slice * WMMA_SIZE_K + kk)) := by
  unfold stageA
  apply stageGen_get
  · refine ⟨2 * row + kk / 8, owner_mem ord hord _ (by omega), ?_, ?_⟩
    · simp only [load_s_A_m, load_s_A_k_eq, BK_eq]
      omega
    · simp only [load_s_A_m, load_s_A_k_eq, BK_eq]
      omega
  · intro tid htid h1 h2
    simp only [load_s_A_m, load_s_A_k_eq, BK_eq] at h1 h2
    obtain ⟨hc1, hc2, hc3⟩ : tid / 2 = row ∧ tid % 2 * 8 ≤ kk ∧ kk < tid % 2 * 8 + 8 := by omega
    simp only [load_s_A_m, load_s_A_k_eq, BK_eq, WMMA_SIZE_K]
    rw [hc1]
    generalize (b_y * BM + row) * K = X
    omega

lemma read_stageB (B : Mat) (N b_x slice : Nat) (ord : List Nat)
    (hord : ord.Perm (List.range NUM_THREADS)) (s0 : Mat) (kk n : Nat)
    (hkk : kk < 16) (hn : n < 128) :
    stageB B N b_x slice ord s0 (kk * BN + n) =
      B ((slice * WMMA_SIZE_K + kk) * N + (b_x * BN + n)) := by
  unfold stageB
  apply stageGen_get
  · refine ⟨kk * 16 + n / 8, owner_mem ord hord _ (by omega), ?_, ?_⟩
    · simp only [load_s_B_k, load_s_B_n, BN_eq]
      omega
    · simp only [load_s_B_k, load_s_B_n, BN_eq]
      omega
  · intro tid htid h1 h2
    simp only [load_s_B_k, load_s_B_n, BN_eq] at h1 h2
    obtain ⟨hc1, hc2, hc3⟩ : tid / 16 = kk ∧ tid % 16 * 8 ≤ n ∧ n < tid % 16 * 8 + 8 := by omega
    simp only [load_s_B_k, load_s_B_n, BN_eq, WMMA_SIZE_K]
    rw [hc1]
    generalize (slice * 16 + kk) * N = X
    omega

lemma read_stageA_async (A : Mat) (K b_y slice PAD buf : Nat) (ord : List Nat)
    (hord : ord.Perm (List.range NUM_THREADS)) (s0 : Mat) (row kk : Nat)
    (hrow : row < 128) (hkk : kk < 16) :
    stageA_async A K b_y slice PAD buf ord s0
      (buf * (BM * (BK + PAD)) + (row * (BK + PAD) + kk)) =
      A ((b_y * BM + row) * K + (slice * WMMA_SIZE_K + kk)) := by
  unfold stageA_async
  apply stageGen_get
  · refine ⟨2 * row + kk / 8, owner_mem ord hord _ (by omega), ?_, ?_⟩
    · apply Nat.add_le_add_left
      simp only [load_s_A_m, load_s_A_k_eq]
      have h1 : (2 * row + kk / 8) / 2 = row := by omega
      have h2 : (2 * row + kk / 8) % 2 * 8 = kk / 8 * 8 := by omega
      rw [h1, h2]
      apply Nat.add_le_add_left
      omega
    · rw [Nat.add_assoc]
      apply Nat.add_lt_add_left
      simp only [load_s_A_m, load_s_A_k_eq]
      have h1 : (2 * row + kk / 8) / 2 = row := by omega
      have h2 : (2 * row + kk / 8) % 2 * 8 = kk / 8 * 8 := by omega
      rw [h1, h2, Nat.add_assoc]
      apply Nat.add_lt_add_left
      omega
  · intro tid htid h1 h2
    simp only [load_s_A_m, load_s_A_k_eq] at h1 h2
    have h1' : tid / 2 * (BK + PAD) + tid % 2 * 8 ≤ row * (BK + PAD) + kk :=
      le_of_add_le_add_left h1
    have h2' : row * (BK + PAD) + kk < tid / 2 * (BK + PAD) + tid % 2 * 8 + 8 := by
      rw [Nat.add_assoc] at h2
      exact lt_of_add_lt_add_left h2
    obtain ⟨hc1, hc2, hc3⟩ := seg_cover (BK + PAD) (tid / 2) (tid % 2 * 8) row kk
      (by simp only [BK_eq]; omega) (by simp only [BK_eq]; omega) h1' h2'
    simp only [load_s_A_m, load_s_A_k_eq, WMMA_SIZE_K]
    rw [hc1]
    generalize (b_y * BM + row) * K = X
    generalize buf * (BM * (BK + PAD)) = S
    generalize row * (BK + PAD) = Y
    omega

lemma read_stageB_async (B : Mat) (N b_x slice PAD buf : Nat) (ord : List Nat)
    (hord : ord.Perm (List.range NUM_THREADS)) (s0 : Mat) (kk n : Nat)
    (hkk : kk < 16) (hn : n < 128) :
    stageB_async B N b_x slice PAD buf ord s0
      (buf * (BK * (BN + PAD)) + (kk * (BN + PAD) + n)) =
      B ((slice * WMMA_SIZE_K + kk) * N + (b_x * BN + n)) := by
  unfold stageB_async
  apply stageGen_get
  · refine ⟨kk * 16 + n / 8, owner_mem ord hord _ (by omega), ?_, ?_⟩
    · apply Nat.add_le_add_left
      simp only [load_s_B_k, load_s_B_n]
      have h1 : (kk * 16 + n / 8) / 16 = kk := by omega
      have h2 : (kk * 16 + n / 8) % 16 * 8 = n / 8 * 8 := by omega
      rw [h1, h2]
      apply Nat.add_le_add_left
      omega
    · rw [Nat.add_assoc]
      apply Nat.add_lt_add_left
      simp only [load_s_B_k, load_s_B_n]
      have h1 : (kk * 16 + n / 8) / 16 = kk := by omega
      have h2 : (kk * 16 + n / 8) % 16 * 8 = n / 8 * 8 := by omega
      rw [h1, h2, Nat.add_assoc]
      apply Nat.add_lt_add_left
      omega
  · intro tid htid h1 h2
    simp only [load_s_B_k, load_s_B_n] at h1 h2
    have h1' : tid / 16 * (BN + PAD) + tid % 16 * 8 ≤ kk * (BN + PAD) + n :=
      le_of_add_le_add_left h1
    have h2' : kk * (BN + PAD) + n < tid / 16 * (BN + PAD) + tid % 16 * 8 + 8 := by
      rw [Nat.add_assoc] at h2
      exact lt_of_add_lt_add_left h2
    obtain ⟨hc1, hc2, hc3⟩ := seg_cover (BN + PAD) (tid / 16) (tid % 16 * 8) kk n
      (by simp only [BN_eq]; omega) (by simp only [BN_eq]; omega) h1' h2'
    simp only [load_s_B_k, load_s_B_n, WMMA_SIZE_K, BN_eq]
    rw [hc1]
    generalize (slice * 16 + kk) * N = X
    generalize buf * (BK * (128 + PAD)) = S
    generalize kk * (128 + PAD) = Y
    omega

lemma stageA_async_untouched (A : Mat) (K b_y slice PAD buf bufR : Nat) (hbuf : buf < 2)
    (hbufR : bufR < 2) (hne : bufR ≠ buf) (ord : List Nat)
    (hord : ord.Perm (List.range NUM_THREADS)) (s0 : Mat) (row kk : Nat)
    (hrow : row < 128) (hkk : kk < 16) :
    stageA_async A K b_y slice PAD buf ord s0
      (bufR * (BM * (BK + PAD)) + (row * (BK + PAD) + kk)) =
      s0 (bufR * (BM * (BK + PAD)) + (row * (BK + PAD) + kk)) := by
  unfold stageA_async
  apply stageGen_untouched
  intro tid htid hcov
  obtain ⟨h1, h2⟩ := hcov
  have htid' : tid < 256 := mem_ord_lt ord hord tid htid
  simp only [load_s_A_m, load_s_A_k_eq] at h1 h2
  have hX : tid / 2 * (BK + PAD) + (tid % 2 * 8 + 8) ≤ 128 * (BK + PAD) :=
    mul_add_le_of_lt 128 (BK + PAD) _ _ (by omega) (by simp only [BK_eq]; omega)
  have hY : row * (BK + PAD) + kk < 128 * (BK + PAD) :=
    mul_add_lt_of_lt 128 (BK + PAD) _ _ hrow (by simp only [BK_eq]; omega)
  simp only [BM_eq] at h1 h2
  generalize 128 * (BK + PAD) = S at hX hY h1 h2
  generalize tid / 2 * (BK + PAD) = P at hX h1 h2
  generalize row * (BK + PAD) = Q at hY h1 h2
  interval_cases buf <;> interval_cases bufR <;>
    simp only [Nat.zero_mul, Nat.one_mul, Nat.zero_add] at h1 h2 <;> omega

lemma stageB_async_untouched (B : Mat) (N b_x slice PAD buf bufR : Nat) (hbuf : buf < 2)
    (hbufR : bufR < 2) (hne : bufR ≠ buf) (ord : List Nat)
    (hord : ord.Perm (List.range NUM_THREADS)) (s0 : Mat) (kk n : Nat)
    (hkk : kk < 16) (hn : n < 128) :
    stageB_async B N b_x slice PAD buf ord s0
      (bufR * (BK * (BN + PAD)) + (kk * (BN + PAD) + n)) =
      s0 (bufR * (BK * (BN + PAD)) + (kk * (BN + PAD) + n)) := by
  unfold stageB_async
  apply stageGen_untouched
  intro tid htid hcov
  obtain ⟨h1, h2⟩ := hcov
  have htid' : tid < 256 := mem_ord_lt ord hord tid htid
  simp only [load_s_B_k, load_s_B_n] at h1 h2
  have hX : tid / 16 * (BN + PAD) + (tid % 16 * 8 + 8) ≤ 16 * (BN + PAD) :=
    mul_add_le_of_lt 16 (BN + PAD) _ _ (by omega) (by simp only [BN_eq]; omega)
  have hY : kk * (BN + PAD) + n < 16 * (BN + PAD) :=
    mul_add_lt_of_lt 16 (BN + PAD) _ _ hkk (by simp only [BN_eq]; omega)
  simp only [BK_eq] at h1 h2
  generalize 16 * (BN + PAD) = S at hX hY h1 h2
  generalize tid / 16 * (BN + PAD) = P at hX h1 h2
  generalize kk * (BN + PAD) = Q at hY h1 h2
  interval_cases buf <;> interval_cases bufR <;>
    simp only [Nat.zero_mul, Nat.one_mul, Nat.zero_add] at h1 h2 <;> omega

/-! Fragment loads out of the staged buffers. -/

lemma loadFragA_state (A : Mat) (K b_y : Nat) (ord : List Nat)
    (hord : ord.Perm (List.range NUM_THREADS)) (s0 : Mat) (t w i r kk : Nat)
    (hw : w < 8) (hi : i < 2) (hr : r < 16) (hkk : kk < 16) :
    loadFragA (s_A_state A K b_y ord s0 (t + 1)) (warp_m w) i r kk =
      A ((b_y * BM + (warp_m w * (WMMA_PER_WARP_M * WMMA_SIZE_M) + i * WMMA_SIZE_M + r)) * K
         + (t * WMMA_SIZE_K + kk)) := by
  have hidx : (warp_m w * (WMMA_PER_WARP_M * WMMA_SIZE_M) + i * WMMA_SIZE_M) * BK + (r * BK + kk)
      = (warp_m w * (WMMA_PER_WARP_M * WMMA_SIZE_M) + i * WMMA_SIZE_M + r) * BK + kk := by ring
  simp only [loadFragA]
  rw [hidx]
  simp only [s_A_state]
  exact read_stageA A K b_y t ord hord _ _ _
    (by simp only [warp_m, WMMA_PER_WARP_M, WMMA_SIZE_M]; omega) hkk

lemma loadFragB_state (B : Mat) (N b_x : Nat) (ord : List Nat)
    (hord : ord.Perm (List.range NUM_THREADS)) (s0 : Mat) (t w j kk c : Nat)
    (hw : w < 8) (hj : j < 4) (hkk : kk < 16) (hc : c < 16) :
    loadFragB (s_B_state B N b_x ord s0 (t + 1)) (warp_n w) j kk c =
      B ((t * WMMA_SIZE_K + kk) * N
         + (b_x * BN + (warp_n w * (WMMA_PER_WARP_N * WMMA_SIZE_N) + j * WMMA_SIZE_N + c))) := by
  have hidx : (warp_n w * (WMMA_PER_WARP_N * WMMA_SIZE_N) + j * WMMA_SIZE_N) + (kk * BN + c)
      = kk * BN + (warp_n w * (WMMA_PER_WARP_N * WMMA_SIZE_N) + j * WMMA_SIZE_N + c) := by ring
  simp only [loadFragB]
  rw [hidx]
  simp only [s_B_state]
  exact read_stageB B N b_x t ord hord _ _ _ hkk
    (by simp only [warp_n, WMMA_PER_WARP_N, WMMA_SIZE_N]; omega)

lemma s_A_state_async_read_self (A : Mat) (K b_y PAD : Nat) (ord : List Nat)
    (hord : ord.Perm (List.range NUM_THREADS)) (s0 : Mat) (s row kk : Nat)
    (hrow : row < 128) (hkk : kk < 16) :
    s_A_state_async A K b_y PAD ord s0 s
      (s % 2 * (BM * (BK + PAD)) + (row * (BK + PAD) + kk)) =
      A ((b_y * BM + row) * K + (s * WMMA_SIZE_K + kk)) := by
  cases s with
  | zero =>
    simp only [s_A_state_async, Nat.zero_mod]
    exact read_stageA_async A K b_y 0 PAD 0 ord hord s0 row kk hrow hkk
  | succ s =>
    simp only [s_A_state_async]
    exact read_stageA_async A K b_y (s + 1) PAD ((s + 1) % 2) ord hord _ row kk hrow hkk

lemma s_A_state_async_read (A : Mat) (K b_y PAD : Nat) (ord : List Nat)
    (hord : ord.Perm (List.range NUM_THREADS)) (s0 : Mat) (s t row kk : Nat)
    (hst : t = s ∨ t = s + 1) (hrow : row < 128) (hkk : kk < 16) :
    s_A_state_async A K b_y PAD ord s0 t
      (s % 2 * (BM * (BK + PAD)) + (row * (BK + PAD) + kk)) =
      A ((b_y * BM + row) * K + (s * WMMA_SIZE_K + kk)) := by
  rcases hst with h | h
  · subst h
    exact s_A_state_async_read_self A K b_y PAD ord hord s0 _ row kk hrow hkk
  · subst h
    simp only [s_A_state_async]
    rw [stageA_async_untouched A K b_y (s + 1) PAD ((s + 1) % 2) (s % 2)
      (by omega) (by omega) (by omega) ord hord _ row kk hrow hkk]
    exact s_A_state_async_read_self A K b_y PAD ord hord s0 s row kk hrow hkk

lemma s_B_state_async_read_self (B : Mat) (N b_x PAD : Nat) (ord : List Nat)
    (hord : ord.Perm (List.range NUM_THREADS)) (s0 : Mat) (s kk n : Nat)
    (hkk : kk < 16) (hn : n < 128) :
    s_B_state_async B N b_x PAD ord s0 s
      (s % 2 * (BK * (BN + PAD)) + (kk * (BN + PAD) + n)) =
      B ((s * WMMA_SIZE_K + kk) * N + (b_x * BN + n)) := by
  cases s with
  | zero =>
    simp only [s_B_state_async, Nat.zero_mod]
    exact read_stageB_async B N b_x 0 PAD 0 ord hord s0 kk n hkk hn
  | succ s =>
    simp only [s_B_state_async]
    exact read_stageB_async B N b_x (s + 1) PAD ((s + 1) % 2) ord hord _ kk n hkk hn

lemma s_B_state_async_read (B : Mat) (N b_x PAD : Nat) (ord : List Nat)
    (hord : ord.Perm (List.range NUM_THREADS)) (s0 : Mat) (s t kk n : Nat)
    (hst : t = s ∨ t = s + 1) (hkk : kk < 16) (hn : n < 128) :
    s_B_state_async B N b_x PAD ord s0 t
      (s % 2 * (BK * (BN + PAD)) + (kk * (BN + PAD) + n)) =
      B ((s * WMMA_SIZE_K + kk) * N + (b_x * BN + n)) := by
  rcases hst with h | h
  · subst h
    exact s_B_state_async_read_self B N b_x PAD ord hord s0 _ kk n hkk hn
  · subst h
    simp only [s_B_state_async]
    rw [stageB_async_untouched B N b_x (s + 1) PAD ((s + 1) % 2) (s % 2)
      (by omega) (by omega) (by omega) ord hord _ kk n hkk hn]
    exact s_B_state_async_read_self B N b_x PAD ord hord s0 s kk n hkk hn

lemma loadFragA_async_state (A : Mat) (K b_y PAD : Nat) (ord : List Nat)
    (hord : ord.Perm (List.range NUM_THREADS)) (s0 : Mat) (s t w i r kk : Nat)
    (hst : t = s ∨ t = s + 1) (hw : w < 8) (hi : i < 2) (hr : r < 16) (hkk : kk < 16) :
    loadFragA_async (s_A_state_async A K b_y PAD ord s0 t) PAD (s % 2) (warp_m w) i r kk =
      A ((b_y * BM + (warp_m w * (WMMA_PER_WARP_M * WMMA_SIZE_M) + i * WMMA_SIZE_M + r)) * K
         + (s * WMMA_SIZE_K + kk)) := by
  have hidx : s % 2 * (BM * (BK + PAD)) +
      ((warp_m w * (WMMA_PER_WARP_M * WMMA_SIZE_M) + i * WMMA_SIZE_M) * (BK + PAD)
        + (r * (BK + PAD) + kk))
      = s % 2 * (BM * (BK + PAD)) +
        ((warp_m w * (WMMA_PER_WARP_M * WMMA_SIZE_M) + i * WMMA_SIZE_M + r) * (BK + PAD) + kk) := by
    ring
  simp only [loadFragA_async]
  rw [hidx]
  exact s_A_state_async_read A K b_y PAD ord hord s0 s t _ kk hst
    (by simp only [warp_m, WMMA_PER_WARP_M, WMMA_SIZE_M]; omega) hkk

lemma loadFragB_async_state (B : Mat) (N b_x PAD : Nat) (ord : List Nat)
    (hord : ord.Perm (List.range NUM_THREADS)) (s0 : Mat) (s t w j kk c : Nat)
    (hst : t = s ∨ t = s + 1) (hw : w < 8) (hj : j < 4) (hkk : kk < 16) (hc : c < 16) :
    loadFragB_async (s_B_state_async B N b_x PAD ord s0 t) PAD (s % 2) (warp_n w) j kk c =
      B ((s * WMMA_SIZE_K + kk) * N
         + (b_x * BN + (warp_n w * (WMMA_PER_WARP_N * WMMA_SIZE_N) + j * WMMA_SIZE_N + c))) := by
  have hidx : s % 2 * (BK * (BN + PAD)) +
      ((warp_n w * (WMMA_PER_WARP_N * WMMA_SIZE_N) + j * WMMA_SIZE_N) + (kk * (BN + PAD) + c))
      = s % 2 * (BK * (BN + PAD)) +
        (kk * (BN + PAD) + (warp_n w * (WMMA_PER_WARP_N * WMMA_SIZE_N) + j * WMMA_SIZE_N + c)) := by
    ring
  simp only [loadFragB_async]
  rw [hidx]
  exact s_B_state_async_read B N b_x PAD ord hord s0 s t kk _ hst hkk
    (by simp only [warp_n, WMMA_PER_WARP_N, WMMA_SIZE_N]; omega)

/-! Closed forms of the accumulator fragments. -/

lemma frag_C_sync_eq (A B : Mat) (N K b_x b_y : Nat) (ordA ordB : List Nat)
    (hordA : ordA.Perm (List.range NUM_THREADS)) (hordB : ordB.Perm (List.range NUM_THREADS))
    (sA0 sB0 : Mat) (w i j r c : Nat) (hw : w < 8) (hi : i < 2) (hj : j < 4)
    (hr : r < 16) (hc : c < 16) (T : Nat) :
    frag_C_sync A B N K b_x b_y ordA ordB sA0 sB0 w i j T r c =
      ∑ t ∈ Finset.range T, sliceMMA A B N K b_x b_y w i j t r c := by
  induction T with
  | zero => simp [frag_C_sync]
  | succ T ih =>
    have hslice : (∑ kk ∈ Finset.range WMMA_SIZE_K,
        loadFragA (s_A_state A K b_y ordA sA0 (T + 1)) (warp_m w) i r kk *
        loadFragB (s_B_state B N b_x ordB sB0 (T + 1)) (warp_n w) j kk c)
        = sliceMMA A B N K b_x b_y w i j T r c := by
      unfold sliceMMA
      apply Finset.sum_congr rfl
      intro kk hkk
      rw [loadFragA_state A K b_y ordA hordA sA0 T w i r kk hw hi hr (Finset.mem_range.mp hkk),
          loadFragB_state B N b_x ordB hordB sB0 T w j kk c hw hj (Finset.mem_range.mp hkk) hc]
    simp only [frag_C_sync, mma_sync]
    rw [hslice, ih, Finset.sum_range_succ]
    exact add_comm _ _

lemma frag_C_async_loop_eq (A B : Mat) (N K b_x b_y PAD : Nat) (ordA ordB : List Nat)
    (hordA : ordA.Perm (List.range NUM_THREADS)) (hordB : ordB.Perm (List.range NUM_THREADS))
    (sA0 sB0 : Mat) (w i j r c : Nat) (hw : w < 8) (hi : i < 2) (hj : j < 4)
    (hr : r < 16) (hc : c < 16) (T : Nat) :
    frag_C_async_loop A B N K b_x b_y PAD ordA ordB sA0 sB0 w i j T r c =
      ∑ t ∈ Finset.range T, sliceMMA A B N K b_x b_y w i j t r c := by
  induction T with
  | zero => simp [frag_C_async_loop]
  | succ T ih =>
    have hslice : (∑ kk ∈ Finset.range WMMA_SIZE_K,
        loadFragA_async (s_A_state_async A K b_y PAD ordA sA0 (T + 1)) PAD (T % 2) (warp_m w) i r kk *
        loadFragB_async (s_B_state_async B N b_x PAD ordB sB0 (T + 1)) PAD (T % 2) (warp_n w) j kk c)
        = sliceMMA A B N K b_x b_y w i j T r c := by
      unfold sliceMMA
      apply Finset.sum_congr rfl
      intro kk hkk
      rw [loadFragA_async_state A K b_y PAD ordA hordA sA0 T (T + 1) w i r kk (Or.inr rfl)
            hw hi hr (Finset.mem_range.mp hkk),
          loadFragB_async_state B N b_x PAD ordB hordB sB0 T (T + 1) w j kk c (Or.inr rfl)
            hw hj (Finset.mem_range.mp hkk) hc]
    simp only [frag_C_async_loop, mma_sync]
    rw [hslice, ih, Finset.sum_range_succ]
    exact add_comm _ _

lemma frag_C_async_eq (A B : Mat) (N K b_x b_y PAD : Nat) (ordA ordB : List Nat)
    (hordA : ordA.Perm (List.range NUM_THREADS)) (hordB : ordB.Perm (List.range NUM_THREADS))
    (sA0 sB0 : Mat) (w i j r c : Nat) (hw : w < 8) (hi : i < 2) (hj : j < 4)
    (hr : r < 16) (hc : c < 16) (hK1 : 1 ≤ K / WMMA_SIZE_K) :
    frag_C_async A B N K b_x b_y PAD ordA ordB sA0 sB0 w i j r c =
      ∑ t ∈ Finset.range (K / WMMA_SIZE_K), sliceMMA A B N K b_x b_y w i j t r c := by
  obtain ⟨T, hT⟩ : ∃ T, K / WMMA_SIZE_K = T + 1 := ⟨K / WMMA_SIZE_K - 1, by omega⟩
  have hlast : last_buf K = T % 2 := by
    unfold last_buf
    rw [hT]
    omega
  have hdrain : (∑ kk ∈ Finset.range WMMA_SIZE_K,
      loadFragA_async (s_A_state_async A K b_y PAD ordA sA0 T) PAD (T % 2) (warp_m w) i r kk *
      loadFragB_async (s_B_state_async B N b_x PAD ordB sB0 T) PAD (T % 2) (warp_n w) j kk c)
      = sliceMMA A B N K b_x b_y w i j T r c := by
    unfold sliceMMA
    apply Finset.sum_congr rfl
    intro kk hkk
    rw [loadFragA_async_state A K b_y PAD ordA hordA sA0 T T w i r kk (Or.inl rfl)
          hw hi hr (Finset.mem_range.mp hkk),
        loadFragB_async_state B N b_x PAD ordB hordB sB0 T T w j kk c (Or.inl rfl)
          hw hj (Finset.mem_range.mp hkk) hc]
  unfold frag_C_async
  rw [hT, hlast]
  simp only [Nat.add_sub_cancel, mma_sync]
  rw [hdrain, frag_C_async_loop_eq A B N K b_x b_y PAD ordA ordB hordA hordB sA0 sB0
        w i j r c hw hi hj hr hc T,
      Finset.sum_range_succ]
  exact add_comm _ _

/-! Summation over all slices equals the reference inner product. -/

lemma sum_range_split (f : Nat → ℚ) (a b : Nat) :
    ∑ k ∈ Finset.range (a + b), f k =
      (∑ k ∈ Finset.range a, f k) + ∑ k ∈ Finset.range b, f (a + k) := by
  induction b with
  | zero => simp
  | succ n ih =>
    rw [show a + (n + 1) = (a + n) + 1 from rfl, Finset.sum_range_succ, ih,
        Finset.sum_range_succ, add_assoc]

lemma double_sum_eq (g : Nat → ℚ) (T : Nat) :
    ∑ t ∈ Finset.range T, ∑ kk ∈ Finset.range 16, g (t * 16 + kk) =
      ∑ k ∈ Finset.range (T * 16), g k := by
  induction T with
  | zero => simp
  | succ T ih =>
    rw [Finset.sum_range_succ, ih, show (T + 1) * 16 = T * 16 + 16 from by ring, sum_range_split]

lemma sliceMMA_sum_refC (A B : Mat) (N K b_x b_y w i j r c : Nat) (hK : K % 16 = 0) :
    ∑ t ∈ Finset.range (K / WMMA_SIZE_K), sliceMMA A B N K b_x b_y w i j t r c =
      refC A B N K
        (b_y * BM + (warp_m w * (WMMA_PER_WARP_M * WMMA_SIZE_M) + i * WMMA_SIZE_M + r))
        (b_x * BN + (warp_n w * (WMMA_PER_WARP_N * WMMA_SIZE_N) + j * WMMA_SIZE_N + c)) := by
  unfold sliceMMA refC
  simp only [WMMA_SIZE_K]
  have h := double_sum_eq
    (fun k => A ((b_y * BM + (warp_m w * (WMMA_PER_WARP_M * WMMA_SIZE_M) + i * WMMA_SIZE_M + r)) * K + k)
      * B (k * N + (b_x * BN + (warp_n w * (WMMA_PER_WARP_N * WMMA_SIZE_N) + j * WMMA_SIZE_N + c))))
    (K / 16)
  rw [Nat.div_mul_cancel (Nat.dvd_of_mod_eq_zero hK)] at h
  exact h

/-! Output writer: every element of C has a unique writing
(block, warp, fragment, position) tuple. -/

lemma storeRow_lt (M b_y w i r : Nat) (hM : M % 128 = 0) (hby : b_y < M / BM)
    (hw : w < 8) (hi : i < 2) (hr : r < 16) : store_g_C_m b_y w i + r < M := by
  simp only [BM_eq] at hby
  simp only [store_g_C_m, warp_m, BM_eq, WMMA_SIZE_M, WMMA_PER_WARP_M]
  omega

lemma storeCol_lt (N b_x w j c : Nat) (hN : N % 128 = 0) (hbx : b_x < N / BN)
    (hw : w < 8) (hj : j < 4) (hc : c < 16) : store_g_C_n b_x w j + c < N := by
  simp only [BN_eq] at hbx
  simp only [store_g_C_n, warp_n, BN_eq, WMMA_SIZE_N, WMMA_PER_WARP_N]
  omega

lemma store_index_eq (N b_y b_x w i j r c m n : Nat)
    (hrow : store_g_C_m b_y w i + r = m) (hcol : store_g_C_n b_x w j + c = n) :
    store_g_C_m b_y w i * N + store_g_C_n b_x w j + (r * N + c) = m * N + n := by
  rw [← hrow, ← hcol]
  ring

lemma store_decomp_unique (M N : Nat) (hM : M % 128 = 0) (hN : N % 128 = 0)
    (m n : Nat) (hm : m < M) (hn : n < N)
    (b_y b_x w i j r c : Nat) (hby : b_y < M / BM) (hbx : b_x < N / BN)
    (hw : w < 8) (hi : i < 2) (hj : j < 4) (hr : r < 16) (hc : c < 16)
    (heq : store_g_C_m b_y w i * N + store_g_C_n b_x w j + (r * N + c) = m * N + n) :
    b_y = m / 128 ∧ b_x = n / 128 ∧ w = m % 128 / 32 * 2 + n % 128 / 64 ∧
    i = m % 32 / 16 ∧ j = n % 64 / 16 ∧ r = m % 16 ∧ c = n % 16 := by
  have hrowlt : store_g_C_m b_y w i + r < M := storeRow_lt M b_y w i r hM hby hw hi hr
  have hcollt : store_g_C_n b_x w j + c < N := storeCol_lt N b_x w j c hN hbx hw hj hc
  have heq' : (store_g_C_m b_y w i + r) * N + (store_g_C_n b_x w j + c) = m * N + n := by
    rw [← heq]
    ring
  obtain ⟨hrow, hcol⟩ := mul_add_inj N _ _ _ _ hcollt hn heq'
  simp only [store_g_C_m, store_g_C_n, warp_m, warp_n, BM_eq, BN_eq, WMMA_SIZE_M,
    WMMA_SIZE_N, WMMA_PER_WARP_M, WMMA_PER_WARP_N] at hrow hcol
  refine ⟨?_, ?_, ?_, ?_, ?_, ?_, ?_⟩ <;> omega

lemma syncRun_at (A B : Mat) (M N K : Nat) (ordA ordB : List Nat) (sA0 sB0 C0 : Mat)
    (m n : Nat) (hM : M % 128 = 0) (hN : N % 128 = 0) (hm : m < M) (hn : n < N) :
    syncKernelRun A B M N K ordA ordB sA0 sB0 C0 (m * N + n) =
      frag_C_sync A B N K (n / 128) (m / 128) ordA ordB sA0 sB0
        (m % 128 / 32 * 2 + n % 128 / 64) (m % 32 / 16) (n % 64 / 16)
        (K / WMMA_SIZE_K) (m % 16) (n % 16) := by
  unfold syncKernelRun
  apply applyWrites_eq
  · simp only [gridStoresSync, blockStoresSync, fragStores, List.mem_flatMap,
      List.mem_map, List.mem_range]
    refine ⟨m / 128, ?_, n / 128, ?_, m % 128 / 32 * 2 + n % 128 / 64, ?_,
      m % 32 / 16, ?_, n % 64 / 16, ?_, m % 16, ?_, n % 16, ?_, ?_⟩
    · simp only [BM_eq]; omega
    · simp only [BN_eq]; omega
    · simp only [WARPS_PER_BLOCK_M, WARPS_PER_BLOCK_N]; omega
    · simp only [WMMA_PER_WARP_M]; omega
    · simp only [WMMA_PER_WARP_N]; omega
    · simp only [WMMA_SIZE_M]; omega
    · simp only [WMMA_SIZE_N]; omega
    · rw [Prod.mk.injEq]
      refine ⟨?_, rfl⟩
      apply store_index_eq
      · simp only [store_g_C_m, warp_m, BM_eq, WMMA_SIZE_M, WMMA_PER_WARP_M]
        omega
      · simp only [store_g_C_n, warp_n, BN_eq, WMMA_SIZE_N, WMMA_PER_WARP_N]
        omega
  · intro p hp hp1
    simp only [gridStoresSync, blockStoresSync, fragStores, List.mem_flatMap,
      List.mem_map, List.mem_range] at hp
    obtain ⟨b_y, hby, b_x, hbx, w, hw, i, hi, j, hj, r, hr, c, hc, hpe⟩ := hp
    subst hpe
    have hidx : store_g_C_m b_y w i * N + store_g_C_n b_x w j + (r * N + c) = m * N + n := hp1
    have hd := store_decomp_unique M N hM hN m n hm hn b_y b_x w i j r c hby hbx
      (by simp only [WARPS_PER_BLOCK_M, WARPS_PER_BLOCK_N] at hw; omega)
      (by simp only [WMMA_PER_WARP_M] at hi; omega)
      (by simp only [WMMA_PER_WARP_N] at hj; omega)
      (by simp only [WMMA_SIZE_M] at hr; omega)
      (by simp only [WMMA_SIZE_N] at hc; omega)
      hidx
    obtain ⟨e1, e2, e3, e4, e5, e6, e7⟩ := hd
    show frag_C_sync A B N K b_x b_y ordA ordB sA0 sB0 w i j (K / WMMA_SIZE_K) r c = _
    rw [e1, e2, e3, e4, e5, e6, e7]

lemma syncRun_untouched (A B : Mat) (M N K : Nat) (ordA ordB : List Nat) (sA0 sB0 C0 : Mat)
    (o : Nat) (hM : M % 128 = 0) (hN : N % 128 = 0)
    (h : ∀ m < M, ∀ n < N, o ≠ m * N + n) :
    syncKernelRun A B M N K ordA ordB sA0 sB0 C0 o = C0 o := by
  unfold syncKernelRun
  apply applyWrites_untouched
  intro p hp
  simp only [gridStoresSync, blockStoresSync, fragStores, List.mem_flatMap,
    List.mem_map, List.mem_range] at hp
  obtain ⟨b_y, hby, b_x, hbx, w, hw, i, hi, j, hj, r, hr, c, hc, hpe⟩ := hp
  subst hpe
  intro hpo
  have hrowlt : store_g_C_m b_y w i + r < M := storeRow_lt M b_y w i r hM hby
    (by simp only [WARPS_PER_BLOCK_M, WARPS_PER_BLOCK_N] at hw; omega)
    (by simp only [WMMA_PER_WARP_M] at hi; omega)
    (by simp only [WMMA_SIZE_M] at hr; omega)
  have hcollt : store_g_C_n b_x w j + c < N := storeCol_lt N b_x w j c hN hbx
    (by simp only [WARPS_PER_BLOCK_M, WARPS_PER_BLOCK_N] at hw; omega)
    (by simp only [WMMA_PER_WARP_N] at hj; omega)
    (by simp only [WMMA_SIZE_N] at hc; omega)
  exact h _ hrowlt _ hcollt
    (by rw [← hpo]; exact store_index_eq N b_y b_x w i j r c _ _ rfl rfl)

lemma asyncRun_at (A B : Mat) (M N K PAD : Nat) (ordA ordB : List Nat) (sA0 sB0 C0 : Mat)
    (m n : Nat) (hM : M % 128 = 0) (hN : N % 128 = 0) (hm : m < M) (hn : n < N) :
    asyncKernelRun A B M N K PAD ordA ordB sA0 sB0 C0 (m * N + n) =
      frag_C_async A B N K (n / 128) (m / 128) PAD ordA ordB sA0 sB0
        (m % 128 / 32 * 2 + n % 128 / 64) (m % 32 / 16) (n % 64 / 16) (m % 16) (n % 16) := by
  unfold asyncKernelRun
  apply applyWrites_eq
  · simp only [gridStoresAsync, blockStoresAsync, fragStores, List.mem_flatMap,
      List.mem_map, List.mem_range]
    refine ⟨m / 128, ?_, n / 128, ?_, m % 128 / 32 * 2 + n % 128 / 64, ?_,
      m % 32 / 16, ?_, n % 64 / 16, ?_, m % 16, ?_, n % 16, ?_, ?_⟩
    · simp only [BM_eq]; omega
    · simp only [BN_eq]; omega
    · simp only [WARPS_PER_BLOCK_M, WARPS_PER_BLOCK_N]; omega
    · simp only [WMMA_PER_WARP_M]; omega
    · simp only [WMMA_PER_WARP_N]; omega
    · simp only [WMMA_SIZE_M]; omega
    · simp only [WMMA_SIZE_N]; omega
    · rw [Prod.mk.injEq]
      refine ⟨?_, rfl⟩
      apply store_index_eq
      · simp only [store_g_C_m, warp_m, BM_eq, WMMA_SIZE_M, WMMA_PER_WARP_M]
        omega
      · simp only [store_g_C_n, warp_n, BN_eq, WMMA_SIZE_N, WMMA_PER_WARP_N]
        omega
  · intro p hp hp1
    simp only [gridStoresAsync, blockStoresAsync, fragStores, List.mem_flatMap,
      List.mem_map, List.mem_range] at hp
    obtain ⟨b_y, hby, b_x, hbx, w, hw, i, hi, j, hj, r, hr, c, hc, hpe⟩ := hp
    subst hpe
    have hidx : store_g_C_m b_y w i * N + store_g_C_n b_x w j + (r * N + c) = m * N + n := hp1
    have hd := store_decomp_unique M N hM hN m n hm hn b_y b_x w i j r c hby hbx
      (by simp only [WARPS_PER_BLOCK_M, WARPS_PER_BLOCK_N] at hw; omega)
      (by simp only [WMMA_PER_WARP_M] at hi; omega)
      (by simp only [WMMA_PER_WARP_N] at hj; omega)
      (by simp only [WMMA_SIZE_M] at hr; omega)
      (by simp only [WMMA_SIZE_N] at hc; omega)
      hidx
    obtain ⟨e1, e2, e3, e4, e5, e6, e7⟩ := hd
    show frag_C_async A B N K b_x b_y PAD ordA ordB sA0 sB0 w i j r c = _
    rw [e1, e2, e3, e4, e5, e6, e7]

lemma asyncRun_untouched (A B : Mat) (M N K PAD : Nat) (ordA ordB : List Nat) (sA0 sB0 C0 : Mat)
    (o : Nat) (hM : M % 128 = 0) (hN : N % 128 = 0)
    (h : ∀ m < M, ∀ n < N, o ≠ m * N + n) :
    asyncKernelRun A B M N K PAD ordA ordB sA0 sB0 C0 o = C0 o := by
  unfold asyncKernelRun
  apply applyWrites_untouched
  intro p hp
  simp only [gridStoresAsync, blockStoresAsync, fragStores, List.mem_flatMap,
    List.mem_map, List.mem_range] at hp
  obtain ⟨b_y, hby, b_x, hbx, w, hw, i, hi, j, hj, r, hr, c, hc, hpe⟩ := hp
  subst hpe
  intro hpo
  have hrowlt : store_g_C_m b_y w i + r < M := storeRow_lt M b_y w i r hM hby
    (by simp only [WARPS_PER_BLOCK_M, WARPS_PER_BLOCK_N] at hw; omega)
    (by simp only [WMMA_PER_WARP_M] at hi; omega)
    (by simp only [WMMA_SIZE_M] at hr; omega)
  have hcollt : store_g_C_n b_x w j + c < N := storeCol_lt N b_x w j c hN hbx
    (by simp only [WARPS_PER_BLOCK_M, WARPS_PER_BLOCK_N] at hw; omega)
    (by simp only [WMMA_PER_WARP_N] at hj; omega)
    (by simp only [WMMA_SIZE_N] at hc; omega)
  exact h _ hrowlt _ hcollt
    (by rw [← hpo]; exact store_index_eq N b_y b_x w i j r c _ _ rfl rfl)

/-! Kernel output equals the reference product. -/

lemma syncRun_product (A B : Mat) (M N K : Nat) (ordA ordB : List Nat)
    (hordA : ordA.Perm (List.range NUM_THREADS)) (hordB : ordB.Perm (List.range NUM_THREADS))
    (sA0 sB0 C0 : Mat) (m n : Nat)
    (hM : M % 128 = 0) (hN : N % 128 = 0) (hK : K % 16 = 0) (hm : m < M) (hn : n < N) :
    syncKernelRun A B M N K ordA ordB sA0 sB0 C0 (m * N + n) = refC A B N K m n := by
  rw [syncRun_at A B M N K ordA ordB sA0 sB0 C0 m n hM hN hm hn]
  rw [frag_C_sync_eq A B N K (n / 128) (m / 128) ordA ordB hordA hordB sA0 sB0
    _ _ _ _ _ (by omega) (by omega) (by omega) (by omega) (by omega) (K / WMMA_SIZE_K)]
  rw [sliceMMA_sum_refC A B N K (n / 128) (m / 128) _ _ _ _ _ hK]
  have hrow : m / 128 * BM + (warp_m (m % 128 / 32 * 2 + n % 128 / 64) *
      (WMMA_PER_WARP_M * WMMA_SIZE_M) + m % 32 / 16 * WMMA_SIZE_M + m % 16) = m := by
    simp only [warp_m, BM_eq, WMMA_SIZE_M, WMMA_PER_WARP_M]
    omega
  have hcol : n / 128 * BN + (warp_n (m % 128 / 32 * 2 + n % 128 / 64) *
      (WMMA_PER_WARP_N * WMMA_SIZE_N) + n % 64 / 16 * WMMA_SIZE_N + n % 16) = n := by
    simp only [warp_n, BN_eq, WMMA_SIZE_N, WMMA_PER_WARP_N]
    omega
  rw [hrow, hcol]

lemma asyncRun_product (A B : Mat) (M N K PAD : Nat) (ordA ordB : List Nat)
    (hordA : ordA.Perm (List.range NUM_THREADS)) (hordB : ordB.Perm (List.range NUM_THREADS))
    (sA0 sB0 C0 : Mat) (m n : Nat)
    (hM : M % 128 = 0) (hN : N % 128 = 0) (hK : K % 16 = 0) (hK16 : 16 ≤ K)
    (hm : m < M) (hn : n < N) :
    asyncKernelRun A B M N K PAD ordA ordB sA0 sB0 C0 (m * N + n) = refC A B N K m n := by
  rw [asyncRun_at A B M N K PAD ordA ordB sA0 sB0 C0 m n hM hN hm hn]
  rw [frag_C_async_eq A B N K (n / 128) (m / 128) PAD ordA ordB hordA hordB sA0 sB0
    _ _ _ _ _ (by omega) (by omega) (by omega) (by omega) (by omega)
    (by simp only [WMMA_SIZE_K]; omega)]
  rw [sliceMMA_sum_refC A B N K (n / 128) (m / 128) _ _ _ _ _ hK]
  have hrow : m / 128 * BM + (warp_m (m % 128 / 32 * 2 + n % 128 / 64) *
      (WMMA_PER_WARP_M * WMMA_SIZE_M) + m % 32 / 16 * WMMA_SIZE_M + m % 16) = m := by
    simp only [warp_m, BM_eq, WMMA_SIZE_M, WMMA_PER_WARP_M]
    omega
  have hcol : n / 128 * BN + (warp_n (m % 128 / 32 * 2 + n % 128 / 64) *
      (WMMA_PER_WARP_N * WMMA_SIZE_N) + n % 64 / 16 * WMMA_SIZE_N + n % 16) = n := by
    simp only [warp_n, BN_eq, WMMA_SIZE_N, WMMA_PER_WARP_N]
    omega
  rw [hrow, hcol]

/-! Behaviour of the asynchronous kernel at K = 0: the main loop is empty,
last_buf evaluates (in C int arithmetic) to slot 1, which no copy ever
populated, so the drain pass multiply-accumulates the initial staging
contents. -/

lemma last_buf_zero : last_buf 0 = 1 := by decide

lemma frag_C_async_K0 (A B : Mat) (N b_x b_y PAD : Nat) (ordA ordB : List Nat)
    (sA0 sB0 : Mat) (w i j r c : Nat) :
    frag_C_async A B N 0 b_x b_y PAD ordA ordB sA0 sB0 w i j r c =
      ∑ kk ∈ Finset.range WMMA_SIZE_K,
        loadFragA_async (stageA_async A 0 b_y 0 PAD 0 ordA sA0) PAD 1 (warp_m w) i r kk *
        loadFragB_async (stageB_async B N b_x 0 PAD 0 ordB sB0) PAD 1 (warp_n w) j kk c := by
  unfold frag_C_async
  rw [show (0 : Nat) / WMMA_SIZE_K - 1 = 0 from rfl, last_buf_zero]
  simp only [s_A_state_async, s_B_state_async, frag_C_async_loop, mma_sync, add_zero]

lemma asyncRun_K0_val (A B sA0 sB0 : Mat) (PAD : Nat) :
    asyncKernelRun A B 128 128 0 PAD (List.range NUM_THREADS) (List.range NUM_THREADS)
      sA0 sB0 (fun _ => 0) 0 =
      ∑ kk ∈ Finset.range WMMA_SIZE_K,
        sA0 (1 * (BM * (BK + PAD)) + (0 * (BK + PAD) + kk)) *
        sB0 (1 * (BK * (BN + PAD)) + (kk * (BN + PAD) + 0)) := by
  have h := asyncRun_at A B 128 128 0 PAD (List.range NUM_THREADS) (List.range NUM_THREADS)
    sA0 sB0 (fun _ => 0) 0 0 (by norm_num) (by norm_num) (by norm_num) (by norm_num)
  norm_num at h
  rw [h, frag_C_async_K0]
  apply Finset.sum_congr rfl
  intro kk hkk
  have hkk' : kk < 16 := Finset.mem_range.mp hkk
  have hidxA : 1 * (BM * (BK + PAD)) +
      ((warp_m 0 * (WMMA_PER_WARP_M * WMMA_SIZE_M) + 0 * WMMA_SIZE_M) * (BK + PAD)
        + (0 * (BK + PAD) + kk))
      = 1 * (BM * (BK + PAD)) + (0 * (BK + PAD) + kk) := by
    simp [warp_m]
  have hidxB : 1 * (BK * (BN + PAD)) +
      ((warp_n 0 * (WMMA_PER_WARP_N * WMMA_SIZE_N) + 0 * WMMA_SIZE_N) + (kk * (BN + PAD) + 0))
      = 1 * (BK * (BN + PAD)) + (kk * (BN + PAD) + 0) := by
    simp [warp_n]
  simp only [loadFragA_async, loadFragB_async]
  rw [hidxA, hidxB]
  rw [stageA_async_untouched A 0 0 0 PAD 0 1 (by omega) (by omega) (by omega)
    (List.range NUM_THREADS) (List.Perm.refl _) sA0 0 kk (by omega) hkk']
  rw [stageB_async_untouched B 128 0 0 PAD 0 1 (by omega) (by omega) (by omega)
    (List.range NUM_THREADS) (List.Perm.refl _) sB0 kk 0 hkk' (by omega)]

lemma syncRun_K0_val (A B sA0 sB0 : Mat) :
    syncKernelRun A B 128 128 0 (List.range NUM_THREADS) (List.range NUM_THREADS)
      sA0 sB0 (fun _ => 0) 0 = 0 := by
  have h := syncRun_at A B 128 128 0 (List.range NUM_THREADS) (List.range NUM_THREADS)
    sA0 sB0 (fun _ => 0) 0 0 (by norm_num) (by norm_num) (by norm_num) (by norm_num)
  norm_num [WMMA_SIZE_K] at h
  rw [h]
  simp [frag_C_sync]

/-- C3: for every call to either host wrapper, if any precondition is
violated (a dtype is not half, M % 128 ≠ 0, N % 128 ≠ 0, K % 16 ≠ 0,
b's first dimension differs from a's second, or c's shape differs from
M×N) the wrapper returns a runtime error before any kernel execution;
otherwise it launches the kernel and returns its output. The device kernels
themselves (modelled as total functions) perform no validation. -/
theorem claim_C3 (a b c : TorchTensor2D) (Adata Bdata C0 : Mat)
    (ordA ordB : List Nat) (sA0 sB0 : Mat) :
    (¬ wrapperPre a b c →
      (∃ msg, hgemm_wrapper_sync a b c Adata Bdata C0 ordA ordB sA0 sB0 = Except.error msg) ∧
      (∃ msg, hgemm_wrapper_async a b c Adata Bdata C0 ordA ordB sA0 sB0 = Except.error msg)) ∧
    (wrapperPre a b c →
      hgemm_wrapper_sync a b c Adata Bdata C0 ordA ordB sA0 sB0 =
        Except.ok (syncKernelRun Adata Bdata a.size0 b.size1 a.size1 ordA ordB sA0 sB0 C0) ∧
      hgemm_wrapper_async a b c Adata Bdata C0 ordA ordB sA0 sB0 =
        Except.ok (asyncKernelRun Adata Bdata a.size0 b.size1 a.size1 8 ordA ordB sA0 sB0 C0)) := by
  constructor
  · intro hpre
    constructor
    · unfold hgemm_wrapper_sync
      split_ifs with h1 h2 h3 h4 h5 h6 h7
      · exact ⟨_, rfl⟩
      · exact ⟨_, rfl⟩
      · exact ⟨_, rfl⟩
      · exact ⟨_, rfl⟩
      · exact ⟨_, rfl⟩
      · exact ⟨_, rfl⟩
      · exact ⟨_, rfl⟩
      · exfalso
        apply hpre
        push_neg at h1 h2 h3 h4 h6 h7
        exact ⟨h1, h2, h3, h4.1, h4.2.1, h4.2.2, h6.1, h7.1, h7.2⟩
    · unfold hgemm_wrapper_async
      split_ifs with h1 h2 h3 h4 h5 h6 h7
      · exact ⟨_, rfl⟩
      · exact ⟨_, rfl⟩
      · exact ⟨_, rfl⟩
      · exact ⟨_, rfl⟩
      · exact ⟨_, rfl⟩
      · exact ⟨_, rfl⟩
      · exact ⟨_, rfl⟩
      · exfalso
        apply hpre
        push_neg at h1 h2 h3 h4 h6 h7
        exact ⟨h1, h2, h3, h4.1, h4.2.1, h4.2.2, h6.1, h7.1, h7.2⟩
  · intro hpre
    obtain ⟨p1, p2, p3, p4, p5, p6, p7, p8, p9⟩ := hpre
    constructor
    · unfold hgemm_wrapper_sync
      rw [if_neg (by simp [p1]), if_neg (by simp [p2]), if_neg (by simp [p3]),
          if_neg (by simp [p4, p5, p6]), if_neg (by simp), if_neg (by simp [p7]),
          if_neg (by simp [p8, p9])]
    · unfold hgemm_wrapper_async
      rw [if_neg (by simp [p1]), if_neg (by simp [p2]), if_neg (by simp [p3]),
          if_neg (by simp [p4, p5, p6]), if_neg (by simp), if_neg (by simp [p7]),
          if_neg (by simp [p8, p9])]

/-- Witness for C3: M = 100 (not a multiple of 128) is rejected with an
error by both wrappers. -/
theorem claim_C3_witness :
    (∃ msg, hgemm_wrapper_sync ⟨TorchDType.half, 100, 16⟩ ⟨TorchDType.half, 16, 128⟩
      ⟨TorchDType.half, 100, 128⟩ (fun _ => 0) (fun _ => 0) (fun _ => 0)
      (List.range NUM_THREADS) (List.range NUM_THREADS) (fun _ => 0) (fun _ => 0) =
        Except.error msg) ∧
    (∃ msg, hgemm_wrapper_async ⟨TorchDType.half, 100, 16⟩ ⟨TorchDType.half, 16, 128⟩
      ⟨TorchDType.half, 100, 128⟩ (fun _ => 0) (fun _ => 0) (fun _ => 0)
      (List.range NUM_THREADS) (List.range NUM_THREADS) (fun _ => 0) (fun _ => 0) =
        Except.error msg) :=
  (claim_C3 ⟨TorchDType.half, 100, 16⟩ ⟨TorchDType.half, 16, 128⟩ ⟨TorchDType.half, 100, 128⟩
    (fun _ => 0) (fun _ => 0) (fun _ => 0) (List.range NUM_THREADS) (List.range NUM_THREADS)
    (fun _ => 0) (fun _ => 0)).1 (by norm_num [wrapperPre])

/-- C4: asynchronous pipeline schedule: the fill stages slice 0 into slot 0;
loop iteration idx_k = t+1 stages slice t+1 into slot (t+1) % 2 while the
compute of that iteration reads slot t % 2 (this is definitional in the
model, stated by the first two conjuncts); altogether every one of the K/16
slices is multiply-accumulated exactly once, and for K = 16 the main loop
contributes nothing and the result is the single fill-then-drain slice. -/
theorem claim_C4 (A B : Mat) (N K b_x b_y PAD : Nat) (ordA ordB : List Nat)
    (hordA : ordA.Perm (List.range NUM_THREADS)) (hordB : ordB.Perm (List.range NUM_THREADS))
    (sA0 sB0 : Mat) (w i j r c : Nat)
    (hw : w < 8) (hi : i < 2) (hj : j < 4) (hr : r < 16) (hc : c < 16)
    (hK : K % 16 = 0) (hK16 : 16 ≤ K) :
    (s_A_state_async A K b_y PAD ordA sA0 0 = stageA_async A K b_y 0 PAD 0 ordA sA0) ∧
    (∀ t, s_A_state_async A K b_y PAD ordA sA0 (t + 1) =
      stageA_async A K b_y (t + 1) PAD ((t + 1) % 2) ordA
        (s_A_state_async A K b_y PAD ordA sA0 t)) ∧
    frag_C_async A B N K b_x b_y PAD ordA ordB sA0 sB0 w i j r c =
      (∑ t ∈ Finset.range (K / WMMA_SIZE_K), sliceMMA A B N K b_x b_y w i j t r c) ∧
    (K = 16 →
      frag_C_async_loop A B N K b_x b_y PAD ordA ordB sA0 sB0 w i j (K / WMMA_SIZE_K - 1) r c = 0 ∧
      frag_C_async A B N K b_x b_y PAD ordA ordB sA0 sB0 w i j r c =
        sliceMMA A B N K b_x b_y w i j 0 r c) := by
  have hmain := frag_C_async_eq A B N K b_x b_y PAD ordA ordB hordA hordB sA0 sB0
    w i j r c hw hi hj hr hc (by simp only [WMMA_SIZE_K]; omega)
  refine ⟨rfl, fun t => rfl, hmain, fun h16 => ⟨?_, ?_⟩⟩
  · subst h16
    rw [show (16 : Nat) / WMMA_SIZE_K - 1 = 0 from rfl]
    rfl
  · subst h16
    rw [hmain, show (16 : Nat) / WMMA_SIZE_K = 1 from rfl, Finset.sum_range_one]

/-- Witness for C4 at the K = 16 boundary case. -/
theorem claim_C4_witness :
    frag_C_async (fun _ => 1) (fun _ => 1) 128 16 0 0 8 (List.range NUM_THREADS)
      (List.range NUM_THREADS) (fun _ => 0) (fun _ => 0) 0 0 0 0 0 =
      ∑ t ∈ Finset.range (16 / WMMA_SIZE_K),
        sliceMMA (fun _ => 1) (fun _ => 1) 128 16 0 0 0 0 0 t 0 0 :=
  (claim_C4 (fun _ => 1) (fun _ => 1) 128 16 0 0 8 (List.range NUM_THREADS)
    (List.range NUM_THREADS) (List.Perm.refl _) (List.Perm.refl _) (fun _ => 0) (fun _ => 0)
    0 0 0 0 0 (by norm_num) (by norm_num) (by norm_num) (by norm_num) (by norm_num)
    (by norm_num) (by norm_num)).2.2.1

/-- C5: the output-writer index arithmetic assigns every element (m, n) of
the M×N output to exactly one (block b_y, block b_x, warp, fragment i,
fragment j, row r, column c) tuple across the entire grid. -/
theorem claim_C5 (M N : Nat) (hM : M % 128 = 0) (hN : N % 128 = 0)
    (m n : Nat) (hm : m < M) (hn : n < N) :
    ∃! t : Nat × Nat × Nat × Nat × Nat × Nat × Nat,
      (t.1 < M / BM ∧ t.2.1 < N / BN ∧ t.2.2.1 < WARPS_PER_BLOCK_M * WARPS_PER_BLOCK_N ∧
        t.2.2.2.1 < WMMA_PER_WARP_M ∧ t.2.2.2.2.1 < WMMA_PER_WARP_N ∧
        t.2.2.2.2.2.1 < WMMA_SIZE_M ∧ t.2.2.2.2.2.2 < WMMA_SIZE_N) ∧
      store_g_C_m t.1 t.2.2.1 t.2.2.2.1 * N + store_g_C_n t.2.1 t.2.2.1 t.2.2.2.2.1 +
        (t.2.2.2.2.2.1 * N + t.2.2.2.2.2.2) = m * N + n := by
  refine ⟨(m / 128, n / 128, m % 128 / 32 * 2 + n % 128 / 64, m % 32 / 16, n % 64 / 16,
    m % 16, n % 16), ⟨⟨?_, ?_, ?_, ?_, ?_, ?_, ?_⟩, ?_⟩, ?_⟩
  · simp only [BM_eq]; omega
  · simp only [BN_eq]; omega
  · simp only [WARPS_PER_BLOCK_M, WARPS_PER_BLOCK_N]; omega
  · simp only [WMMA_PER_WARP_M]; omega
  · simp only [WMMA_PER_WARP_N]; omega
  · simp only [WMMA_SIZE_M]; omega
  · simp only [WMMA_SIZE_N]; omega
  · apply store_index_eq
    · simp only [store_g_C_m, warp_m, BM_eq, WMMA_SIZE_M, WMMA_PER_WARP_M]; omega
    · simp only [store_g_C_n, warp_n, BN_eq, WMMA_SIZE_N, WMMA_PER_WARP_N]; omega
  · rintro ⟨b_y, b_x, w, i, j, r, c⟩ ⟨⟨hby, hbx, hw, hi, hj, hr, hc⟩, hidx⟩
    have hd := store_decomp_unique M N hM hN m n hm hn b_y b_x w i j r c hby hbx
      (by simp only [WARPS_PER_BLOCK_M, WARPS_PER_BLOCK_N] at hw; omega)
      (by simp only [WMMA_PER_WARP_M] at hi; omega)
      (by simp only [WMMA_PER_WARP_N] at hj; omega)
      (by simp only [WMMA_SIZE_M] at hr; omega)
      (by simp only [WMMA_SIZE_N] at hc; omega) hidx
    obtain ⟨e1, e2, e3, e4, e5, e6, e7⟩ := hd
    simp only [Prod.mk.injEq]
    exact ⟨e1, e2, e3, e4, e5, e6, e7⟩

/-- Witness for C5 at M = N = 128, element (37, 99). -/
theorem claim_C5_witness :
    ∃! t : Nat × Nat × Nat × Nat × Nat × Nat × Nat,
      (t.1 < 128 / BM ∧ t.2.1 < 128 / BN ∧ t.2.2.1 < WARPS_PER_BLOCK_M * WARPS_PER_BLOCK_N ∧
        t.2.2.2.1 < WMMA_PER_WARP_M ∧ t.2.2.2.2.1 < WMMA_PER_WARP_N ∧
        t.2.2.2.2.2.1 < WMMA_SIZE_M ∧ t.2.2.2.2.2.2 < WMMA_SIZE_N) ∧
      store_g_C_m t.1 t.2.2.1 t.2.2.2.1 * 128 + store_g_C_n t.2.1 t.2.2.1 t.2.2.2.2.1 +
        (t.2.2.2.2.2.1 * 128 + t.2.2.2.2.2.2) = 37 * 128 + 99 :=
  claim_C5 128 128 (by norm_num) (by norm_num) 37 99 (by norm_num) (by norm_num)

/-- C6: in both variants the accumulator fragments start at zero (the single
fill_fragment, modelled by the base case of the accumulator recursions) and
every subsequent update is an in-place multiply-accumulate addition; no step
resets an accumulator. -/
theorem claim_C6 (A B : Mat) (N K b_x b_y PAD : Nat) (ordA ordB : List Nat)
    (sA0 sB0 : Mat) (w i j : Nat) :
    (∀ r c, frag_C_sync A B N K b_x b_y ordA ordB sA0 sB0 w i j 0 r c = 0) ∧
    (∀ t r c, frag_C_sync A B N K b_x b_y ordA ordB sA0 sB0 w i j (t + 1) r c =
      frag_C_sync A B N K b_x b_y ordA ordB sA0 sB0 w i j t r c +
        ∑ kk ∈ Finset.range WMMA_SIZE_K,
          loadFragA (s_A_state A K b_y ordA sA0 (t + 1)) (warp_m w) i r kk *
          loadFragB (s_B_state B N b_x ordB sB0 (t + 1)) (warp_n w) j kk c) ∧
    (∀ r c, frag_C_async_loop A B N K b_x b_y PAD ordA ordB sA0 sB0 w i j 0 r c = 0) ∧
    (∀ t r c, frag_C_async_loop A B N K b_x b_y PAD ordA ordB sA0 sB0 w i j (t + 1) r c =
      frag_C_async_loop A B N K b_x b_y PAD ordA ordB sA0 sB0 w i j t r c +
        ∑ kk ∈ Finset.range WMMA_SIZE_K,
          loadFragA_async (s_A_state_async A K b_y PAD ordA sA0 (t + 1)) PAD (t % 2)
            (warp_m w) i r kk *
          loadFragB_async (s_B_state_async B N b_x PAD ordB sB0 (t + 1)) PAD (t % 2)
            (warp_n w) j kk c) ∧
    (∀ r c, frag_C_async A B N K b_x b_y PAD ordA ordB sA0 sB0 w i j r c =
      frag_C_async_loop A B N K b_x b_y PAD ordA ordB sA0 sB0 w i j (K / WMMA_SIZE_K - 1) r c +
        ∑ kk ∈ Finset.range WMMA_SIZE_K,
          loadFragA_async (s_A_state_async A K b_y PAD ordA sA0 (K / WMMA_SIZE_K - 1)) PAD
            (last_buf K) (warp_m w) i r kk *
          loadFragB_async (s_B_state_async B N b_x PAD ordB sB0 (K / WMMA_SIZE_K - 1)) PAD
            (last_buf K) (warp_n w) j kk c) := by
  refine ⟨fun r c => rfl, fun t r c => ?_, fun r c => rfl, fun t r c => ?_, fun r c => ?_⟩
  · simp only [frag_C_sync, mma_sync]
    ring
  · simp only [frag_C_async_loop, mma_sync]
    ring
  · simp only [frag_C_async, mma_sync]
    ring

/-- C8: the 256 threads' load offsets cut the 128×16 slice of A and the
16×128 slice of B into whole in-bounds 8-element segments, and every cell
of either slice lies in exactly one thread's segment. -/
theorem claim_C8 :
    (∀ tid, tid < NUM_THREADS → load_s_A_m tid < BM ∧ load_s_A_k tid + 8 ≤ BK ∧
      load_s_B_k tid < BK ∧ load_s_B_n tid + 8 ≤ BN) ∧
    (∀ m k, m < BM → k < BK →
      ∃! tid, tid < NUM_THREADS ∧ load_s_A_m tid = m ∧ load_s_A_k tid ≤ k ∧
        k < load_s_A_k tid + 8) ∧
    (∀ k n, k < BK → n < BN →
      ∃! tid, tid < NUM_THREADS ∧ load_s_B_k tid = k ∧ load_s_B_n tid ≤ n ∧
        n < load_s_B_n tid + 8) := by
  refine ⟨?_, ?_, ?_⟩
  · intro tid htid
    rw [NUM_THREADS_eq] at htid
    simp only [load_s_A_m, load_s_A_k_eq, load_s_B_k, load_s_B_n, BM_eq, BK_eq, BN_eq]
    omega
  · intro m k hm hk
    simp only [BM_eq] at hm
    simp only [BK_eq] at hk
    refine ⟨2 * m + k / 8, ⟨?_, ?_, ?_, ?_⟩, ?_⟩
    · rw [NUM_THREADS_eq]; omega
    · simp only [load_s_A_m]; omega
    · rw [load_s_A_k_eq]; omega
    · rw [load_s_A_k_eq]; omega
    · rintro tid ⟨htid, h1, h2, h3⟩
      rw [NUM_THREADS_eq] at htid
      simp only [load_s_A_m] at h1
      rw [load_s_A_k_eq] at h2 h3
      omega
  · intro k n hk hn
    simp only [BK_eq] at hk
    simp only [BN_eq] at hn
    refine ⟨k * 16 + n / 8, ⟨?_, ?_, ?_, ?_⟩, ?_⟩
    · rw [NUM_THREADS_eq]; omega
    · simp only [load_s_B_k]; omega
    · simp only [load_s_B_n]; omega
    · simp only [load_s_B_n]; omega
    · rintro tid ⟨htid, h1, h2, h3⟩
      rw [NUM_THREADS_eq] at htid
      simp only [load_s_B_k] at h1
      simp only [load_s_B_n] at h2 h3
      omega

/-- Witness for C8: thread 7's segments are in bounds; cell (5, 9) of the
A slice and cell (3, 17) of the B slice each have exactly one owner. -/
theorem claim_C8_witness :
    (load_s_A_m 7 < BM ∧ load_s_A_k 7 + 8 ≤ BK ∧ load_s_B_k 7 < BK ∧
      load_s_B_n 7 + 8 ≤ BN) ∧
    (∃! tid, tid < NUM_THREADS ∧ load_s_A_m tid = 5 ∧ load_s_A_k tid ≤ 9 ∧
      9 < load_s_A_k tid + 8) ∧
    (∃! tid, tid < NUM_THREADS ∧ load_s_B_k tid = 3 ∧ load_s_B_n tid ≤ 17 ∧
      17 < load_s_B_n tid + 8) :=
  ⟨claim_C8.1 7 (by decide), claim_C8.2.1 5 9 (by decide) (by decide),
   claim_C8.2.2 3 17 (by decide) (by decide)⟩

/-- C10: neither device kernel reads its argument M: with the block indices,
N, K and all buffers held fixed, the full list of (address, value) output
stores of a block is literally the same term for any two values of M. -/
theorem claim_C10 (A B : Mat) (M M2 N K PAD b_x b_y : Nat) (ordA ordB : List Nat)
    (sA0 sB0 : Mat) :
    blockStoresSync A B M N K b_x b_y ordA ordB sA0 sB0 =
      blockStoresSync A B M2 N K b_x b_y ordA ordB sA0 sB0 ∧
    blockStoresAsync A B M N K PAD b_x b_y ordA ordB sA0 sB0 =
      blockStoresAsync A B M2 N K PAD b_x b_y ordA ordB sA0 sB0 :=
  ⟨rfl, rfl⟩

/-- C1 (amended: the asynchronous variant additionally requires K ≥ 16):
for every M, N, K with M % 128 = 0, N % 128 = 0, K % 16 = 0, with the
half values modelled as exact rationals, the synchronous kernel writes the
reference product A·B into every element of C, and so does the asynchronous
kernel (for any padding) provided K ≥ 16. The concrete 1.0/2.0 → 32.0
scenario is the witness below. -/
theorem claim_C1 (A B : Mat) (M N K : Nat) (ordA ordB : List Nat)
    (hordA : ordA.Perm (List.range NUM_THREADS)) (hordB : ordB.Perm (List.range NUM_THREADS))
    (sA0 sB0 C0 : Mat) (m n : Nat)
    (hM : M % 128 = 0) (hN : N % 128 = 0) (hK : K % 16 = 0) (hm : m < M) (hn : n < N) :
    syncKernelRun A B M N K ordA ordB sA0 sB0 C0 (m * N + n) = refC A B N K m n ∧
    (16 ≤ K → ∀ PAD, asyncKernelRun A B M N K PAD ordA ordB sA0 sB0 C0 (m * N + n)
      = refC A B N K m n) :=
  ⟨syncRun_product A B M N K ordA ordB hordA hordB sA0 sB0 C0 m n hM hN hK hm hn,
   fun hK16 PAD => asyncRun_product A B M N K PAD ordA ordB hordA hordB sA0 sB0 C0 m n
     hM hN hK hK16 hm hn⟩

/-- Witness for C1: A = 128×16 all 1.0, B = 16×128 all 2.0; element (0, 0)
of C is 32 for both kernel variants. -/
theorem claim_C1_witness :
    syncKernelRun (fun _ => 1) (fun _ => 2) 128 128 16 (List.range NUM_THREADS)
      (List.range NUM_THREADS) (fun _ => 0) (fun _ => 0) (fun _ => 0) (0 * 128 + 0) = 32 ∧
    asyncKernelRun (fun _ => 1) (fun _ => 2) 128 128 16 8 (List.range NUM_THREADS)
      (List.range NUM_THREADS) (fun _ => 0) (fun _ => 0) (fun _ => 0) (0 * 128 + 0) = 32 := by
  have h := claim_C1 (fun _ => (1 : ℚ)) (fun _ => 2) 128 128 16 (List.range NUM_THREADS)
    (List.range NUM_THREADS) (List.Perm.refl _) (List.Perm.refl _)
    (fun _ => 0) (fun _ => 0) (fun _ => 0) 0 0 (by norm_num) (by norm_num) (by norm_num)
    (by norm_num) (by norm_num)
  have href : refC (fun _ => (1 : ℚ)) (fun _ => 2) 128 16 0 0 = 32 := by
    simp [refC, Finset.sum_const, Finset.card_range]
    norm_num
  exact ⟨h.1.trans href, (h.2 (by norm_num) 8).trans href⟩

/-- Counterexample to C1 as stated: K = 0 satisfies K % 16 = 0, and with
A = B all ones and staging memory initially all ones the asynchronous
kernel writes 16 into C[0] (its unconditional drain pass reads the
never-populated buffer slot 1), while the reference product is the empty
sum 0 — outside any relative tolerance. -/
theorem claim_C1_cex :
    asyncKernelRun (fun _ => 1) (fun _ => 1) 128 128 0 8 (List.range NUM_THREADS)
      (List.range NUM_THREADS) (fun _ => 1) (fun _ => 1) (fun _ => 0) 0 = 16 ∧
    refC (fun _ => 1) (fun _ => 1) 128 0 0 0 = 0 := by
  constructor
  · rw [asyncRun_K0_val]
    simp [WMMA_SIZE_K, Finset.sum_const, Finset.card_range]
  · simp [refC]

/-- C2 (amended: K ≥ 16): for identical inputs satisfying the divisibility
preconditions and at least one reduction slice, the synchronous and the
asynchronous double-buffered kernels produce identical output at every
address, for any padding, any staging-write orders and any initial staging
contents on either side. -/
theorem claim_C2 (A B : Mat) (M N K PAD : Nat) (ordA ordB ordA2 ordB2 : List Nat)
    (hordA : ordA.Perm (List.range NUM_THREADS)) (hordB : ordB.Perm (List.range NUM_THREADS))
    (hordA2 : ordA2.Perm (List.range NUM_THREADS)) (hordB2 : ordB2.Perm (List.range NUM_THREADS))
    (sA0 sB0 sA02 sB02 C0 : Mat)
    (hM : M % 128 = 0) (hN : N % 128 = 0) (hK : K % 16 = 0) (hK16 : 16 ≤ K) (o : Nat) :
    asyncKernelRun A B M N K PAD ordA ordB sA0 sB0 C0 o =
      syncKernelRun A B M N K ordA2 ordB2 sA02 sB02 C0 o := by
  by_cases hdec : ∃ m, m < M ∧ ∃ n, n < N ∧ o = m * N + n
  · obtain ⟨m, hm, n, hn, rfl⟩ := hdec
    rw [asyncRun_product A B M N K PAD ordA ordB hordA hordB sA0 sB0 C0 m n hM hN hK hK16 hm hn,
        syncRun_product A B M N K ordA2 ordB2 hordA2 hordB2 sA02 sB02 C0 m n hM hN hK hm hn]
  · have hno : ∀ m < M, ∀ n < N, o ≠ m * N + n := by
      intro m hm n hn heq
      exact hdec ⟨m, hm, n, hn, heq⟩
    rw [asyncRun_untouched A B M N K PAD ordA ordB sA0 sB0 C0 o hM hN hno,
        syncRun_untouched A B M N K ordA2 ordB2 sA02 sB02 C0 o hM hN hno]

/-- Witness for C2 at M = N = 128, K = 16, PAD = 8, address 0. -/
theorem claim_C2_witness :
    asyncKernelRun (fun _ => 1) (fun _ => 2) 128 128 16 8 (List.range NUM_THREADS)
      (List.range NUM_THREADS) (fun _ => 0) (fun _ => 0) (fun _ => 0) 0 =
    syncKernelRun (fun _ => 1) (fun _ => 2) 128 128 16 (List.range NUM_THREADS)
      (List.range NUM_THREADS) (fun _ => 0) (fun _ => 0) (fun _ => 0) 0 :=
  claim_C2 (fun _ => 1) (fun _ => 2) 128 128 16 8 (List.range NUM_THREADS)
    (List.range NUM_THREADS) (List.range NUM_THREADS) (List.range NUM_THREADS)
    (List.Perm.refl _) (List.Perm.refl _) (List.Perm.refl _) (List.Perm.refl _)
    (fun _ => 0) (fun _ => 0) (fun _ => 0) (fun _ => 0) (fun _ => 0)
    (by norm_num) (by norm_num) (by norm_num) (by norm_num) 0

/-- Counterexample to C2 as stated: at K = 0 (allowed by the divisibility
preconditions) with identical all-ones inputs the asynchronous kernel
writes 16 into C[0] while the synchronous kernel writes 0. -/
theorem claim_C2_cex :
    asyncKernelRun (fun _ => 1) (fun _ => 1) 128 128 0 8 (List.range NUM_THREADS)
      (List.range NUM_THREADS) (fun _ => 1) (fun _ => 1) (fun _ => 0) 0 ≠
    syncKernelRun (fun _ => 1) (fun _ => 1) 128 128 0 (List.range NUM_THREADS)
      (List.range NUM_THREADS) (fun _ => 1) (fun _ => 1) (fun _ => 0) 0 := by
  rw [asyncRun_K0_val, syncRun_K0_val]
  simp [WMMA_SIZE_K, Finset.sum_const, Finset.card_range]

/-- C7 (amended: K ≥ 16): the padding parameter changes only the staging
buffer layout, never the logical slice contents, so for every valid input
with at least one reduction slice the asynchronous kernel's output is
identical for any two values of PAD. -/
theorem claim_C7 (A B : Mat) (M N K PAD1 PAD2 : Nat) (ordA ordB : List Nat)
    (hordA : ordA.Perm (List.range NUM_THREADS)) (hordB : ordB.Perm (List.range NUM_THREADS))
    (sA0 sB0 C0 : Mat)
    (hM : M % 128 = 0) (hN : N % 128 = 0) (hK : K % 16 = 0) (hK16 : 16 ≤ K) (o : Nat) :
    asyncKernelRun A B M N K PAD1 ordA ordB sA0 sB0 C0 o =
      asyncKernelRun A B M N K PAD2 ordA ordB sA0 sB0 C0 o := by
  by_cases hdec : ∃ m, m < M ∧ ∃ n, n < N ∧ o = m * N + n
  · obtain ⟨m, hm, n, hn, rfl⟩ := hdec
    rw [asyncRun_product A B M N K PAD1 ordA ordB hordA hordB sA0 sB0 C0 m n hM hN hK hK16 hm hn,
        asyncRun_product A B M N K PAD2 ordA ordB hordA hordB sA0 sB0 C0 m n hM hN hK hK16 hm hn]
  · have hno : ∀ m < M, ∀ n < N, o ≠ m * N + n := by
      intro m hm n hn heq
      exact hdec ⟨m, hm, n, hn, heq⟩
    rw [asyncRun_untouched A B M N K PAD1 ordA ordB sA0 sB0 C0 o hM hN hno,
        asyncRun_untouched A B M N K PAD2 ordA ordB sA0 sB0 C0 o hM hN hno]

/-- Witness for C7: PAD = 0 and PAD = 8 (the host's choice) agree at
M = N = 128, K = 16, address 0. -/
theorem claim_C7_witness :
    asyncKernelRun (fun _ => 1) (fun _ => 2) 128 128 16 0 (List.range NUM_THREADS)
      (List.range NUM_THREADS) (fun _ => 0) (fun _ => 0) (fun _ => 0) 0 =
    asyncKernelRun (fun _ => 1) (fun _ => 2) 128 128 16 8 (List.range NUM_THREADS)
      (List.range NUM_THREADS) (fun _ => 0) (fun _ => 0) (fun _ => 0) 0 :=
  claim_C7 (fun _ => 1) (fun _ => 2) 128 128 16 0 8 (List.range NUM_THREADS)
    (List.range NUM_THREADS) (List.Perm.refl _) (List.Perm.refl _)
    (fun _ => 0) (fun _ => 0) (fun _ => 0) (by norm_num) (by norm_num) (by norm_num)
    (by norm_num) 0

/-- Counterexample to C7 as stated: at K = 0 the drain pass reads the
never-populated slot 1 of the staging buffer, whose flat addresses depend
on PAD; with staging memory initialized to the identity map the outputs
for PAD = 0 and PAD = 8 differ (32888 versus 49272 at C[0]). -/
theorem claim_C7_cex :
    asyncKernelRun (fun _ => 0) (fun _ => 1) 128 128 0 0 (List.range NUM_THREADS)
      (List.range NUM_THREADS) (fun idx => (idx : ℚ)) (fun _ => 1) (fun _ => 0) 0 ≠
    asyncKernelRun (fun _ => 0) (fun _ => 1) 128 128 0 8 (List.range NUM_THREADS)
      (List.range NUM_THREADS) (fun idx => (idx : ℚ)) (fun _ => 1) (fun _ => 0) 0 := by
  rw [asyncRun_K0_val, asyncRun_K0_val]
  norm_num [WMMA_SIZE_K, BM_eq, BK_eq, BN_eq, Finset.sum_range_succ]

/-- C9 (amended: the asynchronous variant additionally requires K ≥ 16):
the output of a kernel launch is a function of the inputs alone — it does
not depend on the order in which the threads' staging writes land, nor on
the initial contents of the (uninitialized) staging buffers. The
synchronous variant satisfies this for every valid K; the asynchronous
variant for K ≥ 16. -/
theorem claim_C9 (A B : Mat) (M N K PAD : Nat) (ordA ordB ordA2 ordB2 : List Nat)
    (hordA : ordA.Perm (List.range NUM_THREADS)) (hordB : ordB.Perm (List.range NUM_THREADS))
    (hordA2 : ordA2.Perm (List.range NUM_THREADS)) (hordB2 : ordB2.Perm (List.range NUM_THREADS))
    (sA0 sB0 sA02 sB02 C0 : Mat)
    (hM : M % 128 = 0) (hN : N % 128 = 0) (hK : K % 16 = 0) (o : Nat) :
    syncKernelRun A B M N K ordA ordB sA0 sB0 C0 o =
      syncKernelRun A B M N K ordA2 ordB2 sA02 sB02 C0 o ∧
    (16 ≤ K → asyncKernelRun A B M N K PAD ordA ordB sA0 sB0 C0 o =
      asyncKernelRun A B M N K PAD ordA2 ordB2 sA02 sB02 C0 o) := by
  constructor
  · by_cases hdec : ∃ m, m < M ∧ ∃ n, n < N ∧ o = m * N + n
    · obtain ⟨m, hm, n, hn, rfl⟩ := hdec
      rw [syncRun_product A B M N K ordA ordB hordA hordB sA0 sB0 C0 m n hM hN hK hm hn,
          syncRun_product A B M N K ordA2 ordB2 hordA2 hordB2 sA02 sB02 C0 m n hM hN hK hm hn]
    · have hno : ∀ m < M, ∀ n < N, o ≠ m * N + n := by
        intro m hm n hn heq
        exact hdec ⟨m, hm, n, hn, heq⟩
      rw [syncRun_untouched A B M N K ordA ordB sA0 sB0 C0 o hM hN hno,
          syncRun_untouched A B M N K ordA2 ordB2 sA02 sB02 C0 o hM hN hno]
  · intro hK16
    by_cases hdec : ∃ m, m < M ∧ ∃ n, n < N ∧ o = m * N + n
    · obtain ⟨m, hm, n, hn, rfl⟩ := hdec
      rw [asyncRun_product A B M N K PAD ordA ordB hordA hordB sA0 sB0 C0 m n hM hN hK hK16 hm hn,
          asyncRun_product A B M N K PAD ordA2 ordB2 hordA2 hordB2 sA02 sB02 C0 m n
            hM hN hK hK16 hm hn]
    · have hno : ∀ m < M, ∀ n < N, o ≠ m * N + n := by
        intro m hm n hn heq
        exact hdec ⟨m, hm, n, hn, heq⟩
      rw [asyncRun_untouched A B M N K PAD ordA ordB sA0 sB0 C0 o hM hN hno,
          asyncRun_untouched A B M N K PAD ordA2 ordB2 sA02 sB02 C0 o hM hN hno]

/-- Witness for C9: a run whose staging writes land in reversed thread
order, over garbage staging contents, equals the canonical run, at
M = N = 128, K = 16, address 0, for both variants. -/
theorem claim_C9_witness :
    syncKernelRun (fun _ => 1) (fun _ => 2) 128 128 16 (List.range NUM_THREADS).reverse
      (List.range NUM_THREADS).reverse (fun _ => 5) (fun _ => 7) (fun _ => 0) 0 =
    syncKernelRun (fun _ => 1) (fun _ => 2) 128 128 16 (List.range NUM_THREADS)
      (List.range NUM_THREADS) (fun _ => 0) (fun _ => 0) (fun _ => 0) 0 ∧
    asyncKernelRun (fun _ => 1) (fun _ => 2) 128 128 16 8 (List.range NUM_THREADS).reverse
      (List.range NUM_THREADS).reverse (fun _ => 5) (fun _ => 7) (fun _ => 0) 0 =
    asyncKernelRun (fun _ => 1) (fun _ => 2) 128 128 16 8 (List.range NUM_THREADS)
      (List.range NUM_THREADS) (fun _ => 0) (fun _ => 0) (fun _ => 0) 0 := by
  have h := claim_C9 (fun _ => (1 : ℚ)) (fun _ => 2) 128 128 16 8
    (List.range NUM_THREADS).reverse (List.range NUM_THREADS).reverse
    (List.range NUM_THREADS) (List.range NUM_THREADS)
    (List.reverse_perm _) (List.reverse_perm _) (List.Perm.refl _) (List.Perm.refl _)
    (fun _ => 5) (fun _ => 7) (fun _ => 0) (fun _ => 0) (fun _ => 0)
    (by norm_num) (by norm_num) (by norm_num) 0
  exact ⟨h.1, h.2 (by norm_num)⟩

/-- Counterexample to C9 as stated: at K = 0 the asynchronous kernel's
output depends on the initial contents of the staging buffers (which are
not inputs and vary across invocations): all-ones staging yields C[0] = 16,
all-twos staging yields C[0] = 32, for identical inputs A, B, M, N, K. -/
theorem claim_C9_cex :
    asyncKernelRun (fun _ => 1) (fun _ => 1) 128 128 0 8 (List.range NUM_THREADS)
      (List.range NUM_THREADS) (fun _ => 1) (fun _ => 1) (fun _ => 0) 0 ≠
    asyncKernelRun (fun _ => 1) (fun _ => 1) 128 128 0 8 (List.range NUM_THREADS)
      (List.range NUM_THREADS) (fun _ => 2) (fun _ => 1) (fun _ => 0) 0 := by
  rw [asyncRun_K0_val, asyncRun_K0_val]
  simp [WMMA_SIZE_K, Finset.sum_const, Finset.card_range]

end HgemmWMMA
